import Mathlib

/-!
# Rotary-position estimator (`Firmware/MotorControl/encoder.cpp`)

A shallow embedding of the `Encoder` class and of the collaborators it talks to.

Conventions of the embedding:

* `int16_t`, `int32_t`, `int64_t`, `uint32_t`, `uint64_t` values are integers, and every
  operation that can leave the range of its C type is followed by the matching reduction
  (`toInt16`, `toInt32`, `toInt64`, `toUInt32`, `toUInt64`): two's-complement wrap-around.
* In the estimator tick (`sample_now`, `update`) and in the count setters `float` values
  are exact rationals. In `run_offset_calibration` every `float` and `double` operation is
  followed by rounding (`fl32`, `fl64`). Infinities and NaN are outside the model.
* Every member function becomes a function on the record `Encoder`; a C++ `bool` result
  is returned next to the new state.
-/

namespace ODrive

/-! ## Machine integers -/

/-- Cast to `int16_t`: the signed value of the low 16 bits. -/
def toInt16 (x : Int) : Int := (x + 32768) % 65536 - 32768

/-- Cast to `int32_t`: the signed value of the low 32 bits. -/
def toInt32 (x : Int) : Int := (x + 2147483648) % 4294967296 - 2147483648

/-- Cast to `int64_t`: the signed value of the low 64 bits. -/
def toInt64 (x : Int) : Int := (x + 9223372036854775808) % 18446744073709551616 - 9223372036854775808

/-- Cast to `uint32_t`: the low 32 bits. -/
def toUInt32 (x : Int) : Int := x % 4294967296

/-- Cast to `uint64_t`: the low 64 bits. -/
def toUInt64 (x : Int) : Int := x % 18446744073709551616

/-- Range of an `int32_t`. -/
def isInt32 (x : Int) : Prop := -2147483648 ≤ x ∧ x ≤ 2147483647

instance (x : Int) : Decidable (isInt32 x) := by
  unfold isInt32; infer_instance

/-- Conversion `(int32_t)x` / `(int)x` of a real value: truncation towards zero, saturating
at the ends of the 32-bit range (the conversion of the target's FPU; outside that range
the C++ conversion is undefined). -/
def f2i (x : ℚ) : Int :=
  let t : Int := if 0 ≤ x then ⌊x⌋ else ⌈x⌉
  if t < -2147483648 then -2147483648 else if 2147483647 < t then 2147483647 else t

/-! ## Single and double precision

The supervisor routine `run_offset_calibration` computes in `float`, with the `double`
constant `M_PI` promoting some products to `double`. A `float` or `double` value is the
rational it denotes; every operation is the exact one followed by rounding to the nearest
value of the format, ties to even. Infinities and NaN are not modelled: a result beyond the
largest finite value stays the rounded rational, and a division by zero is 0. With
`cpr > 0` and `pole_pairs > 0` the routine divides by no zero and all its values are far
inside the range of the formats. -/

/-- Nearest integer, ties to the even one. -/
def round_even (x : ℚ) : Int :=
  let f := ⌊x⌋
  let r := x - (f : ℚ)
  if r < 1 / 2 then f
  else if r > 1 / 2 then f + 1
  else if f % 2 = 0 then f else f + 1

/-- The position of the leading bit of `n ≥ 1`, by halving at most `fuel` times. -/
def log2_fuel : Nat → Nat → Nat
  | 0, _ => 0
  | f + 1, n => if n < 2 then 0 else log2_fuel f (n / 2) + 1

/-- The binary exponent of `x ≠ 0`: the `e` with `2^e ≤ |x| < 2^(e+1)`. -/
def ilog2 (x : ℚ) : Int :=
  let e := (log2_fuel x.num.natAbs x.num.natAbs : Int) - (log2_fuel x.den x.den : Int)
  if (2 : ℚ) ^ e ≤ |x| then e else e - 1

/-- Rounding to a binary format with `p` significant bits whose smallest subnormal is
`2^emin`: the nearest multiple of the unit in the last place, ties to even. -/
def round_to (p : Nat) (emin : Int) (x : ℚ) : ℚ :=
  if x = 0 then 0
  else
    let e := max (ilog2 x - ((p : Int) - 1)) emin
    (round_even (x / (2 : ℚ) ^ e) : ℚ) * (2 : ℚ) ^ e

/-- Rounding to `float` (IEEE 754 binary32). -/
def fl32 (x : ℚ) : ℚ := round_to 24 (-149) x

/-- Rounding to `double` (IEEE 754 binary64). -/
def fl64 (x : ℚ) : ℚ := round_to 53 (-1074) x

/-! ## Utilities that the sources use but do not contain -/

/-- Modelled from the spec: `mod(a, n)` of the firmware utilities, which are not among the
sources: "`mod(a, n)` is the mathematical modulo (non-negative result)". -/
def mod (a n : Int) : Int := a % n

/-- The constant `M_PI` of `math.h`: the double nearest to π, an exact rational. -/
def M_PI : ℚ := 884279719003555 / 281474976710656

/-- Modelled from the spec: `fmodf_pos(x, y)` of the firmware utilities, which are not
among the sources: "folded into [0, cpr) via positive-fmod". -/
def fmodf_pos (x y : ℚ) : ℚ := x - y * ⌊x / y⌋

/-- Modelled from the spec: `wrap_pm(x, pm_range)` of the firmware utilities, which are not
among the sources: "wrapped to (−cpr/2, +cpr/2]", for `pm_range = cpr/2`. -/
def wrap_pm (x pm_range : ℚ) : ℚ := x - 2 * pm_range * ⌈(x - pm_range) / (2 * pm_range)⌉

/-- Modelled from the spec: `wrap_pm_pi(x)` of the firmware utilities, which are not among
the sources: the angle wrapped to "(−π, π]". -/
def wrap_pm_pi (x : ℚ) : ℚ := wrap_pm x M_PI

/-- Modelled from the spec: the latched error flags of `Encoder::Error_t`; the header that
gives them their values is not among the sources, they are distinct single bits. -/
def ERROR_NONE : Nat := 0x00

/-- Modelled from the spec: flag `UNSTABLE_GAIN` (see `ERROR_NONE`). -/
def ERROR_UNSTABLE_GAIN : Nat := 0x01

/-- Modelled from the spec: flag `CPR_OUT_OF_RANGE` (see `ERROR_NONE`). -/
def ERROR_CPR_OUT_OF_RANGE : Nat := 0x02

/-- Modelled from the spec: flag `NO_RESPONSE` (see `ERROR_NONE`). -/
def ERROR_NO_RESPONSE : Nat := 0x04

/-- Modelled from the spec: flag `UNSUPPORTED_ENCODER_MODE` (see `ERROR_NONE`). -/
def ERROR_UNSUPPORTED_ENCODER_MODE : Nat := 0x08

/-- Modelled from the spec: flag `ILLEGAL_HALL_STATE` (see `ERROR_NONE`). -/
def ERROR_ILLEGAL_HALL_STATE : Nat := 0x10

/-- Modelled from the spec: flag `INDEX_NOT_FOUND_YET` (see `ERROR_NONE`). -/
def ERROR_INDEX_NOT_FOUND_YET : Nat := 0x20

/-- Modelled from the spec: flag `Axis::ERROR_MOTOR_FAILED` of the enclosing axis, whose
header is not among the sources; a single bit. -/
def AXIS_ERROR_MOTOR_FAILED : Nat := 0x40

/-- Test that every bit of the flag `e` is set in the bitset `err`. -/
def has_error (err e : Nat) : Prop := err &&& e = e

instance (err e : Nat) : Decidable (has_error err e) := by
  unfold has_error; infer_instance

/-! ## Data model -/

/-- The encoder modes; `MODE_UNSUPPORTED` stands for every other value of the enum. -/
inductive Mode where
  | MODE_INCREMENTAL
  | MODE_HALL
  | MODE_SINCOS
  | MODE_UNSUPPORTED
  deriving DecidableEq, Repr

/-- The motor types; `MOTOR_TYPE_OTHER` stands for every other value of the enum. -/
inductive MotorType where
  | MOTOR_TYPE_HIGH_CURRENT
  | MOTOR_TYPE_GIMBAL
  | MOTOR_TYPE_OTHER
  deriving DecidableEq, Repr

/-- The record `Encoder::Config_t` (`config_`). -/
structure Config where
  mode : Mode
  use_index : Bool
  pre_calibrated : Bool
  zero_count_on_find_idx : Bool
  find_idx_on_lockin_only : Bool
  idx_search_unidirectional : Bool
  ignore_illegal_hall_state : Bool
  enable_phase_interpolation : Bool
  cpr : Int
  offset : Int
  offset_float : ℚ
  calib_range : ℚ
  bandwidth : ℚ
  deriving DecidableEq

/-- Modelled from the spec: what the estimator reads and writes of the enclosing axis
(`axis_`) and its motor, whose declarations are not among the sources: `error` is
`axis_->error_`, `direction`, `motor_type`, `pole_pairs` ("integer"), `phase_resistance`
and `calibration_current` are fields of `motor_.config_`, the two `lockin` flags are
fields of `config_.lockin`, and `armed` records a successful `motor_.arm_foc()`. -/
structure Axis where
  error : Nat
  direction : Int
  motor_type : MotorType
  pole_pairs : Int
  phase_resistance : ℚ
  calibration_current : ℚ
  lockin_finish_on_enc_idx : Bool
  lockin_finish_on_distance : Bool
  armed : Bool
  deriving DecidableEq

/-- The state of one `Encoder`, with the hardware registers it owns: `CNT` is
`counter_->htim.Instance->CNT`, `index_subscribed` the armed state of the index-pin
interrupt of `index_gpio_`. The counts, `offset` and `cpr` are `int32_t`, the estimates
`float`, `tim_cnt_sample` is an `int16_t` and `hall_state` a `uint8_t`. -/
structure Encoder where
  config : Config
  axis : Axis
  error : Nat
  is_ready : Bool
  index_found : Bool
  shadow_count : Int
  count_in_cpr : Int
  interpolation : ℚ
  phase : ℚ
  pos_estimate : ℚ
  pos_cpr : ℚ
  vel_estimate : ℚ
  pll_kp : ℚ
  pll_ki : ℚ
  tim_cnt_sample : Int
  hall_state : Nat
  sincos_sample_s : ℚ
  sincos_sample_c : ℚ
  CNT : Int
  index_subscribed : Bool
  deriving DecidableEq

/-! ## Operations -/

/-- Source `Encoder::set_error`: `error_ |= error`. -/
def set_error (error : Nat) (s : Encoder) : Encoder :=
  { s with error := s.error ||| error }

/-- Source `Encoder::set_linear_count`. -/
def set_linear_count (count : Int) (s : Encoder) : Encoder :=
  { s with
    shadow_count := count
    pos_estimate := (count : ℚ)
    CNT := toUInt32 count }

/-- Source `Encoder::set_circular_count`. -/
def set_circular_count (count : Int) (update_offset : Bool) (s : Encoder) : Encoder :=
  let config :=
    if update_offset then
      let offset := toInt32 (s.config.offset + toInt32 (count - s.count_in_cpr))
      { s.config with offset := mod offset s.config.cpr }
    else s.config
  let count_in_cpr := mod count config.cpr
  { s with
    config := config
    count_in_cpr := count_in_cpr
    pos_cpr := (count_in_cpr : ℚ) }

/-- Source `Encoder::enc_index_cb`, the callback of the index-pin interrupt. -/
def enc_index_cb (s : Encoder) : Encoder :=
  let s :=
    if s.config.use_index then
      let s := set_circular_count 0 false s
      let s := if s.config.zero_count_on_find_idx then set_linear_count 0 s else s
      let s := if s.config.pre_calibrated then { s with is_ready := true }
               else { s with is_ready := false }
      { s with index_found := true }
    else s
  { s with index_subscribed := false }

/-- Source `Encoder::set_idx_subscribe`. -/
def set_idx_subscribe (override_enable : Bool) (s : Encoder) : Encoder :=
  let s :=
    if override_enable || (s.config.use_index && !s.config.find_idx_on_lockin_only) then
      { s with index_subscribed := true }
    else s
  if !s.config.use_index || s.config.find_idx_on_lockin_only then
    { s with index_subscribed := false }
  else s

/-- Source `Encoder::update_pll_gains`. -/
def update_pll_gains (s : Encoder) : Encoder :=
  let pll_kp := 2 * s.config.bandwidth
  { s with pll_kp := pll_kp, pll_ki := 0.25 * (pll_kp * pll_kp) }

/-- Source `Encoder::check_pre_calibrated`. -/
def check_pre_calibrated (s : Encoder) : Encoder :=
  let s := if !s.is_ready then { s with config := { s.config with pre_calibrated := false } } else s
  if s.config.mode = Mode.MODE_INCREMENTAL ∧ !s.index_found then
    { s with config := { s.config with pre_calibrated := false } }
  else s

/-- Source `decode_hall`: the sector of a three-bit Hall code, `none` for `return false`. -/
def decode_hall (hall_state : Nat) : Option Int :=
  match hall_state with
  | 0b001 => some 0
  | 0b011 => some 1
  | 0b010 => some 2
  | 0b110 => some 3
  | 0b100 => some 4
  | 0b101 => some 5
  | _ => none

/-- Source `Encoder::sample_now`; `val_sin` and `val_cos` are what the two ADC channels
return from `get_normalized`. -/
def sample_now (val_sin val_cos : ℚ) (s : Encoder) : Encoder :=
  match s.config.mode with
  | Mode.MODE_INCREMENTAL => { s with tim_cnt_sample := toInt16 s.CNT }
  | Mode.MODE_HALL => s
  | Mode.MODE_SINCOS =>
      { s with sincos_sample_s := val_sin - 0.5, sincos_sample_c := val_cos - 0.5 }
  | Mode.MODE_UNSUPPORTED => set_error ERROR_UNSUPPORTED_ENCODER_MODE s

/-- Source `Encoder::update`, the `switch (config_.mode)`: the raw delta `delta_enc` of the
tick, or the error flag with which the tick is aborted (`return false`). `fast_atan2` is
the firmware utility of that name, which is not among the sources. -/
def delta_enc (fast_atan2 : ℚ → ℚ → ℚ) (s : Encoder) : Except Nat Int :=
  match s.config.mode with
  | Mode.MODE_INCREMENTAL =>
      let delta_enc_16 := toInt16 (toInt16 s.tim_cnt_sample - toInt16 s.shadow_count)
      Except.ok delta_enc_16
  | Mode.MODE_HALL =>
      match decode_hall s.hall_state with
      | some hall_cnt =>
          let d := toInt32 (hall_cnt - s.count_in_cpr)
          let d := mod d 6
          Except.ok (if d > 3 then toInt32 (d - 6) else d)
      | none =>
          if !s.config.ignore_illegal_hall_state then Except.error ERROR_ILLEGAL_HALL_STATE
          else Except.ok 0
  | Mode.MODE_SINCOS =>
      let phase := fast_atan2 s.sincos_sample_s s.sincos_sample_c
      let fake_count := f2i (1000 * phase)
      let d := toInt32 (fake_count - s.count_in_cpr)
      let d := mod d 6283
      Except.ok (if d > 6283 / 2 then toInt32 (d - 6283) else d)
  | Mode.MODE_UNSUPPORTED => Except.error ERROR_UNSUPPORTED_ENCODER_MODE

/-- Source `Encoder::update`, from `shadow_count_ += delta_enc` to the end: counts, PLL,
interpolation and electrical phase. -/
def update_state (dt : ℚ) (delta_enc : Int) (s : Encoder) : Encoder :=
  let shadow_count := toInt32 (s.shadow_count + delta_enc)
  let count_in_cpr := toInt32 (s.count_in_cpr + delta_enc)
  let count_in_cpr := mod count_in_cpr s.config.cpr
  -- run pll
  let pos_estimate := s.pos_estimate + dt * s.vel_estimate
  let pos_cpr := s.pos_cpr + dt * s.vel_estimate
  let delta_pos : ℚ := (toInt32 (shadow_count - f2i (⌊pos_estimate⌋ : ℚ)) : ℚ)
  let delta_pos_cpr : ℚ := (toInt32 (count_in_cpr - f2i (⌊pos_cpr⌋ : ℚ)) : ℚ)
  let delta_pos_cpr := wrap_pm delta_pos_cpr (0.5 * (s.config.cpr : ℚ))
  let pos_estimate := pos_estimate + dt * s.pll_kp * delta_pos
  let pos_cpr := pos_cpr + dt * s.pll_kp * delta_pos_cpr
  let pos_cpr := fmodf_pos pos_cpr (s.config.cpr : ℚ)
  let vel_estimate := s.vel_estimate + dt * s.pll_ki * delta_pos_cpr
  let snap_to_zero_vel : Bool := decide (|vel_estimate| < 0.5 * dt * s.pll_ki)
  let vel_estimate := if snap_to_zero_vel then 0 else vel_estimate
  -- run encoder count interpolation
  let corrected_enc := toInt32 (count_in_cpr - s.config.offset)
  let interpolation : ℚ :=
    if snap_to_zero_vel || !s.config.enable_phase_interpolation then 0.5
    else if delta_enc > 0 then 0
    else if delta_enc < 0 then 1
    else
      let i := s.interpolation + dt * vel_estimate
      let i := if i > 1 then 1 else i
      if i < 0 then 0 else i
  let interpolated_enc : ℚ := (corrected_enc : ℚ) + interpolation
  -- compute electrical phase
  let elec_rad_per_enc : ℚ := ((s.axis.pole_pairs * 2 : Int) : ℚ) * M_PI * (1 / (s.config.cpr : ℚ))
  let ph := elec_rad_per_enc * (interpolated_enc - s.config.offset_float)
  { s with
    shadow_count := shadow_count
    count_in_cpr := count_in_cpr
    pos_estimate := pos_estimate
    pos_cpr := pos_cpr
    vel_estimate := vel_estimate
    interpolation := interpolation
    phase := wrap_pm_pi ph }

/-- Source `Encoder::update`, the first statement: the check of the discrete-time gain. -/
def check_gain (dt : ℚ) (s : Encoder) : Encoder :=
  if !decide (dt * s.pll_kp < 1) then set_error ERROR_UNSTABLE_GAIN s else s

/-- Source `Encoder::update`. -/
def update (fast_atan2 : ℚ → ℚ → ℚ) (dt : ℚ) (s : Encoder) : Bool × Encoder :=
  let s := check_gain dt s
  match delta_enc fast_atan2 s with
  | Except.error e => (false, set_error e s)
  | Except.ok d => (true, update_state dt d s)

/-! ## Offset calibration -/

/-- One pass of the control loop of the axis, as the supervisor routines see it:
`shadow_count` is the value of `shadow_count_` that the estimator tick of this pass leaves,
`ticks_ms` what `get_ticks_ms()` returns in the handler, `foc_ok` the result of
`motor_.FOC_update`, `axis_error` the flags latched in `axis_->error_` during the pass. -/
structure Tick where
  shadow_count : Int
  ticks_ms : Int
  foc_ok : Bool
  axis_error : Nat
  deriving DecidableEq

/-- What the motor, the clock and the control loop do during one call of
`run_offset_calibration`: the result of `arm_foc`, the three readings of `get_ticks_ms()`
that start a loop, and the passes of the three loops. -/
structure World where
  arm_foc : Bool
  lock_start_ms : Int
  lock : List Tick
  fwd_start_ms : Int
  fwd : List Tick
  bwd_start_ms : Int
  bwd : List Tick
  deriving DecidableEq

/-- Modelled from the spec: `Axis::run_control_loop`, which is not among the sources:
"invokes `predicate` every tick until it returns true or an error is latched". Each pass
first lets the estimator tick and the axis checks act on the state, then runs the handler
on its captured variables `acc`. The result is `none` when the passes of the world are
used up before the loop ends. -/
def run_control_loop {σ : Type} (handler : Tick → Encoder → σ → Bool × σ) :
    List Tick → σ → Encoder → Option (σ × Encoder)
  | [], _, _ => none
  | t :: ts, acc, s =>
      let s := { s with
        shadow_count := toInt32 t.shadow_count
        axis := { s.axis with error := s.axis.error ||| t.axis_error } }
      let r := handler t s acc
      if r.1 || decide (s.axis.error ≠ 0) then some (r.2, s)
      else run_control_loop handler ts r.2 s

/-- Source `run_offset_calibration`: `start_lock_duration`. -/
def start_lock_duration : ℚ := 1.0

/-- Source `run_offset_calibration`: `scan_omega`, the `double` product `4.0f * M_PI`
stored in a `float`. -/
def scan_omega : ℚ := fl32 (fl64 (4.0 * M_PI))

/-- Source `run_offset_calibration`: `scan_distance`, the `double` product `16.0f * M_PI`
stored in a `float`. -/
def scan_distance : ℚ := fl32 (fl64 (16.0 * M_PI))

/-- Source `run_offset_calibration`: `scan_duration`. -/
def scan_duration : ℚ := fl32 (scan_distance / scan_omega)

/-- Source `run_offset_calibration`: the time `t` in seconds since `start_ms`,
`(float)(get_ticks_ms() - start_ms) / 1000.f`. -/
def elapsed (start_ms : Int) (t : Tick) : ℚ :=
  fl32 (fl32 (toUInt32 (t.ticks_ms - start_ms) : ℚ) / 1000)

/-- Source `run_offset_calibration`: the handler of the first loop, which holds the rotor
at phase 0 (the command itself only reaches `FOC_update`). -/
def lock_handler (start_ms : Int) (t : Tick) (_s : Encoder) (acc : Unit) : Bool × Unit :=
  if !t.foc_ok then (false, acc)
  else (decide (elapsed start_ms t > start_lock_duration), acc)

/-- Source `run_offset_calibration`: the handler of the forward and of the backward scan;
the captured variables are `(encvaluesum, num_steps)`. The two scans differ only in the
phase they command, which only reaches `FOC_update`. -/
def scan_handler (start_ms : Int) (t : Tick) (s : Encoder) (acc : Int × Int) : Bool × (Int × Int) :=
  if !t.foc_ok then (false, acc)
  else
    let encvaluesum := toInt64 (acc.1 + s.shadow_count)
    let num_steps := toUInt64 (acc.2 + 1)
    (decide (elapsed start_ms t > scan_duration), (encvaluesum, num_steps))

/-- Source `run_offset_calibration`: the voltage of the scan, `none` for a motor type that
is neither high-current nor gimbal. -/
def voltage_magnitude (a : Axis) : Option ℚ :=
  match a.motor_type with
  | MotorType.MOTOR_TYPE_HIGH_CURRENT => some (fl32 (a.calibration_current * a.phase_resistance))
  | MotorType.MOTOR_TYPE_GIMBAL => some a.calibration_current
  | MotorType.MOTOR_TYPE_OTHER => none

/-- Source `run_offset_calibration`: `elec_rad_per_enc`. The integer `pole_pairs * 2` times
the `double` `M_PI` is a `double` product, and so is its product with the `float` quotient
`1.0f / (float)cpr`; the result is stored in a `float`. -/
def elec_rad_per_enc (s : Encoder) : ℚ :=
  fl32 (fl64 (fl64 (((s.axis.pole_pairs * 2 : Int) : ℚ) * M_PI)
    * fl32 (1 / fl32 (s.config.cpr : ℚ))))

/-- Source `run_offset_calibration`: `expected_encoder_delta`. -/
def expected_encoder_delta (s : Encoder) : ℚ :=
  fl32 (scan_distance / elec_rad_per_enc s)

/-- Source `run_offset_calibration`: `actual_encoder_delta_abs`, `fabsf` of the 32-bit
difference converted to `float`. -/
def actual_encoder_delta_abs (s : Encoder) (init_enc_val : Int) : ℚ :=
  |fl32 ((toInt32 (s.shadow_count - init_enc_val) : Int) : ℚ)|

/-- Source `run_offset_calibration`: the condition of the CPR check, in `float`. -/
def cpr_out_of_range (s : Encoder) (init_enc_val : Int) : Bool :=
  decide (fl32 (|fl32 (actual_encoder_delta_abs s init_enc_val - expected_encoder_delta s)|
    / expected_encoder_delta s) > s.config.calib_range)

/-- Source `run_offset_calibration`: the three assignments that store the result. In
`encvaluesum / (num_steps * 2)` the left operand is an `int64_t` and the right one a
`uint64_t`, so the division is the unsigned one, and its quotient is narrowed to the
`int32_t` field `offset`. In the last assignment both operands are converted to `float`,
and the quotient and the sum are `float` operations. -/
def store_offset (encvaluesum num_steps : Int) (s : Encoder) : Encoder :=
  let offset := toInt32 (toUInt64 encvaluesum / toUInt64 (num_steps * 2))
  let residual := toInt32 (toInt64 (encvaluesum - toInt64 (offset * toInt64 (toUInt64 (num_steps * 2)))))
  let offset_float : ℚ :=
    fl32 (fl32 (fl32 (residual : ℚ) / fl32 (toUInt64 (num_steps * 2) : ℚ)) + 0.5)
  { s with config := { s.config with offset := offset, offset_float := offset_float } }

/-- Source `Encoder::run_offset_calibration`; `none` when one of its loops does not end
within the passes of the world. -/
def run_offset_calibration (w : World) (s : Encoder) : Option (Bool × Encoder) :=
  -- Require index found if enabled
  if s.config.use_index && !s.index_found then
    some (false, set_error ERROR_INDEX_NOT_FOUND_YET s)
  else
    let s := { s with shadow_count := s.count_in_cpr }
    match voltage_magnitude s.axis with
    | none => some (false, s)
    | some _ =>
      if !w.arm_foc then
        some (false, { s with axis := { s.axis with error := s.axis.error ||| AXIS_ERROR_MOTOR_FAILED } })
      else
        let s := { s with axis := { s.axis with armed := true } }
        match run_control_loop (lock_handler w.lock_start_ms) w.lock () s with
        | none => none
        | some (_, s) =>
          if s.axis.error ≠ 0 then some (false, s)
          else
            let init_enc_val := s.shadow_count
            -- scan forward
            match run_control_loop (scan_handler w.fwd_start_ms) w.fwd (0, 0) s with
            | none => none
            | some (acc, s) =>
              if s.axis.error ≠ 0 then some (false, s)
              else
                -- Check response and direction
                let dir : Option Int :=
                  if s.shadow_count > toInt32 (init_enc_val + 8) then some 1
                  else if s.shadow_count < toInt32 (init_enc_val - 8) then some (-1)
                  else none
                match dir with
                | none => some (false, set_error ERROR_NO_RESPONSE s)
                | some d =>
                  let s := { s with axis := { s.axis with direction := d } }
                  -- Check CPR
                  if cpr_out_of_range s init_enc_val then
                    some (false, set_error ERROR_CPR_OUT_OF_RANGE s)
                  else
                    -- scan backwards
                    match run_control_loop (scan_handler w.bwd_start_ms) w.bwd acc s with
                    | none => none
                    | some (acc, s) =>
                      if s.axis.error ≠ 0 then some (false, s)
                      else
                        let s := store_offset acc.1 acc.2 s
                        some (true, { s with is_ready := true })

/-! ## Start-up and the supervisor routines around the lock-in spin -/

/-- What the hardware counter answers during `init`: `present` is `counter_ != nullptr`,
the other three are the results of `counter_->init`, `config_encoder_mode` and
`start_encoder`. -/
structure CounterHw where
  present : Bool
  init_ok : Bool
  config_encoder_mode_ok : Bool
  start_encoder_ok : Bool
  deriving DecidableEq

/-- Source `Encoder::init`; `set_idx_subscribe()` is called with its default argument
`override_enable = false`. -/
def init (hw : CounterHw) (s : Encoder) : Bool × Encoder :=
  let s := update_pll_gains s
  let s :=
    if s.config.pre_calibrated
        && (s.config.mode == Mode.MODE_HALL || s.config.mode == Mode.MODE_SINCOS) then
      { s with is_ready := true }
    else s
  if !hw.present then (false, s)
  else if !hw.init_ok then (false, s)
  else if !hw.config_encoder_mode_ok then (false, s)
  else if !hw.start_encoder_ok then (false, s)
  else (true, set_idx_subscribe false s)

/-- What one call of `Axis::run_lockin_spin` does, as the estimator sees it: the status it
returns, the value of `shadow_count_` that the estimator ticks of the spin leave, the flags
that those ticks (`update` runs on every tick) latch in the estimator's `error_`, the flags
latched in `axis_->error_`, and whether the index callback ran during the spin. -/
structure Spin where
  status : Bool
  shadow_count : Int
  error : Nat
  axis_error : Nat
  index_cb : Bool
  deriving DecidableEq

/-- Modelled from the spec: `Axis::run_lockin_spin`, which is not among the sources:
"`run_lockin_spin() → bool`", an "open-loop rotating-voltage excitation used to move the
rotor during commissioning": an external step that returns a status and leaves a new
`shadow_count`. The estimator keeps ticking during the spin ("`sample_now`,
`decode_hall_samples`, `update` run here", in the tick context), so its `update` can latch
flags in `error_` meanwhile. -/
def run_lockin_spin (sp : Spin) (s : Encoder) : Bool × Encoder :=
  let s := if sp.index_cb then enc_index_cb s else s
  let s := { s with
    shadow_count := toInt32 sp.shadow_count
    error := s.error ||| sp.error
    axis := { s.axis with error := s.axis.error ||| sp.axis_error } }
  (sp.status, s)

/-- Source `Encoder::run_index_search`. -/
def run_index_search (sp : Spin) (s : Encoder) : Bool × Encoder :=
  let s := { s with config := { s.config with use_index := true }, index_found := false }
  let s :=
    if !s.config.idx_search_unidirectional && s.axis.direction == 0 then
      { s with axis := { s.axis with direction := 1 } }
    else s
  let orig_finish_on_enc_idx := s.axis.lockin_finish_on_enc_idx
  let s := { s with axis := { s.axis with lockin_finish_on_enc_idx := true } }
  let r := run_lockin_spin sp s
  let status := r.1
  let s := { r.2 with axis := { r.2.axis with lockin_finish_on_enc_idx := orig_finish_on_enc_idx } }
  (status, s)

/-- Source `Encoder::run_direction_find`. -/
def run_direction_find (sp : Spin) (s : Encoder) : Bool × Encoder :=
  let init_enc_val := s.shadow_count
  let orig_finish_on_distance := s.axis.lockin_finish_on_distance
  let s := { s with axis := { s.axis with lockin_finish_on_distance := true, direction := 1 } }
  let r := run_lockin_spin sp s
  let status := r.1
  let s := { r.2 with axis := { r.2.axis with lockin_finish_on_distance := orig_finish_on_distance } }
  let s :=
    if status then
      -- Check response and direction
      if s.shadow_count > toInt32 (init_enc_val + 8) then
        { s with axis := { s.axis with direction := 1 } }
      else if s.shadow_count < toInt32 (init_enc_val - 8) then
        { s with axis := { s.axis with direction := -1 } }
      else
        { s with axis := { s.axis with direction := 0 } }
    else s
  (status, s)

/-! ## Views of the PLL step of `update` -/

/-- Source `Encoder::update`: the circular residual `delta_pos_cpr` of the phase detector,
after `wrap_pm`, in a tick whose raw delta is `d`. -/
def pll_delta_pos_cpr (dt : ℚ) (d : Int) (s : Encoder) : ℚ :=
  let count_in_cpr := mod (toInt32 (s.count_in_cpr + d)) s.config.cpr
  let pos_cpr := s.pos_cpr + dt * s.vel_estimate
  wrap_pm ((toInt32 (count_in_cpr - f2i (⌊pos_cpr⌋ : ℚ)) : Int) : ℚ) (0.5 * (s.config.cpr : ℚ))

/-- Source `Encoder::update`: `vel_estimate_` after `vel_estimate_ += dt * pll_ki_ *
delta_pos_cpr`, before the snap. -/
def pll_vel (dt : ℚ) (d : Int) (s : Encoder) : ℚ :=
  s.vel_estimate + dt * s.pll_ki * pll_delta_pos_cpr dt d s

/-- Source `Encoder::update`: the flag `snap_to_zero_vel`. -/
def snap_to_zero_vel (dt : ℚ) (d : Int) (s : Encoder) : Bool :=
  decide (|pll_vel dt d s| < 0.5 * dt * s.pll_ki)

/-- Source `Encoder::update`: the two statements that keep the interpolation within one
count. -/
def clamp01 (i : ℚ) : ℚ :=
  let i := if i > 1 then 1 else i
  if i < 0 then 0 else i

/-- Every bit set in `before` is still set in `after`. -/
def latched (before after : Nat) : Prop :=
  ∀ i : Nat, before.testBit i = true → after.testBit i = true

/-! ## Views of the stages of `run_offset_calibration` -/

/-- Source `run_offset_calibration`, "Check response and direction": the direction that
the forward scan shows, `none` for "Encoder response error". -/
def scan_direction (init_enc_val : Int) (s : Encoder) : Option Int :=
  if s.shadow_count > toInt32 (init_enc_val + 8) then some 1
  else if s.shadow_count < toInt32 (init_enc_val - 8) then some (-1)
  else none

/-- Source `run_offset_calibration`, from the assignment of the motor direction to the
end: CPR check, backward scan and storing of the result. -/
def calibration_finish (w : World) (init_enc_val : Int) (acc : Int × Int) (d : Int)
    (s : Encoder) : Option (Bool × Encoder) :=
  let s := { s with axis := { s.axis with direction := d } }
  if cpr_out_of_range s init_enc_val then
    some (false, set_error ERROR_CPR_OUT_OF_RANGE s)
  else
    match run_control_loop (scan_handler w.bwd_start_ms) w.bwd acc s with
    | none => none
    | some (acc, s) =>
      if s.axis.error ≠ 0 then some (false, s)
      else
        let s := store_offset acc.1 acc.2 s
        some (true, { s with is_ready := true })

/-! ## Concrete states used in the examples -/

/-- An estimator at rest: incremental mode, 8192 counts per revolution, bandwidth 1000,
seven pole pairs, everything else zero or off. -/
def encoder0 : Encoder where
  config := {
    mode := Mode.MODE_INCREMENTAL
    use_index := false
    pre_calibrated := false
    zero_count_on_find_idx := true
    find_idx_on_lockin_only := false
    idx_search_unidirectional := false
    ignore_illegal_hall_state := false
    enable_phase_interpolation := true
    cpr := 8192
    offset := 0
    offset_float := 0
    calib_range := 0.05
    bandwidth := 1000 }
  axis := {
    error := 0
    direction := 0
    motor_type := MotorType.MOTOR_TYPE_HIGH_CURRENT
    pole_pairs := 7
    phase_resistance := 0.1
    calibration_current := 10
    lockin_finish_on_enc_idx := false
    lockin_finish_on_distance := false
    armed := false }
  error := 0
  is_ready := false
  index_found := false
  shadow_count := 0
  count_in_cpr := 0
  interpolation := 0
  phase := 0
  pos_estimate := 0
  pos_cpr := 0
  vel_estimate := 0
  pll_kp := 2000
  pll_ki := 1000000
  tim_cnt_sample := 0
  hall_state := 0
  sincos_sample_s := 0
  sincos_sample_c := 0
  CNT := 0
  index_subscribed := false

/-- A stand-in for `fast_atan2` in the examples that do not run the sin/cos mode. -/
def atan2_zero (_s _c : ℚ) : ℚ := 0

/-- The circular count lies in `[0, cpr)`. -/
def count_in_range (s : Encoder) : Prop :=
  0 ≤ s.count_in_cpr ∧ s.count_in_cpr < s.config.cpr

instance (s : Encoder) : Decidable (count_in_range s) := by
  unfold count_in_range; infer_instance

/-- The rotor moves by `d` counts between two ticks: the 16-bit quadrature counter of the
timer (period `0xffff`) follows, then the tick samples it and runs `update`. -/
def incremental_tick (fast_atan2 : ℚ → ℚ → ℚ) (dt : ℚ) (s : Encoder) (d : Int) : Encoder :=
  let s := { s with CNT := (s.CNT + d) % 65536 }
  (update fast_atan2 dt (sample_now 0 0 s)).2

/-- A sequence of ticks, one per listed movement of the rotor. -/
def incremental_run (fast_atan2 : ℚ → ℚ → ℚ) (dt : ℚ) (s : Encoder) (ds : List Int) : Encoder :=
  ds.foldl (incremental_tick fast_atan2 dt) s

/-- Every movement of the sequence is a signed 16-bit value and the linear position, which
starts at `p`, stays an `int32_t` throughout. -/
def moves_fit (p : Int) : List Int → Prop
  | [] => True
  | d :: ds => (-32768 ≤ d ∧ d ≤ 32767) ∧ isInt32 (p + d) ∧ moves_fit (p + d) ds

/-- The state of `encoder0` with the linear count at the top of the `int32_t` range and
the hardware counter one count further, at `(2147483647 + 1) mod 2^16 = 0`. -/
def encoder_top : Encoder :=
  { encoder0 with shadow_count := 2147483647, CNT := (2147483647 + 1) % 65536 }

/-- The Hall code of a sector, the table `001→0, 011→1, 010→2, 110→3, 100→4, 101→5` read
from right to left (any other number gives the illegal code `000`). -/
def hall_code (sector : Int) : Nat :=
  if sector = 0 then 0b001
  else if sector = 1 then 0b011
  else if sector = 2 then 0b010
  else if sector = 3 then 0b110
  else if sector = 4 then 0b100
  else if sector = 5 then 0b101
  else 0b000

/-- One tick in HALL mode: `decode_hall_samples` has left the sampled code in `hall_state_`,
then `update` runs. The result is the raw delta of the tick (`none` when the tick is
aborted) and the state after it. -/
def hall_tick (fast_atan2 : ℚ → ℚ → ℚ) (dt : ℚ) (s : Encoder) (code : Nat) :
    Option Int × Encoder :=
  let s := { s with hall_state := code }
  ((delta_enc fast_atan2 s).toOption, (update fast_atan2 dt s).2)

/-- A sequence of HALL ticks, one per listed code: the raw deltas and the final state. -/
def hall_run (fast_atan2 : ℚ → ℚ → ℚ) (dt : ℚ) : Encoder → List Nat → List (Option Int) × Encoder
  | s, [] => ([], s)
  | s, code :: codes =>
      let r := hall_tick fast_atan2 dt s code
      let rs := hall_run fast_atan2 dt r.2 codes
      (r.1 :: rs.1, rs.2)

/-- The code sequence `001,011,010,110,100,101,001` of one electrical revolution. -/
def hall_cycle : List Nat := [0b001, 0b011, 0b010, 0b110, 0b100, 0b101, 0b001]

/-- The state `s` is in HALL mode with the given `cpr`, circular and linear count. -/
def hall_at (s : Encoder) (cpr k sh : Int) : Prop :=
  s.config.mode = Mode.MODE_HALL ∧ s.config.cpr = cpr ∧ s.count_in_cpr = k ∧ s.shadow_count = sh

/-- The state `encoder0` in HALL mode with the given `cpr`. -/
def encoder_hall (cpr : Int) : Encoder :=
  { encoder0 with config := { encoder0.config with mode := Mode.MODE_HALL, cpr := cpr } }

/-- The six valid Hall codes. -/
def valid_hall_codes : List Nat := [0b001, 0b011, 0b010, 0b110, 0b100, 0b101]

/-- Modelled from the spec: the dispatch of the index-pin interrupt by the GPIO driver,
which is not among the sources: the callback runs on an edge while the interrupt is
subscribed, and "subsequent index edges [are] ignored (interrupt unsubscribed)". -/
def index_edge (s : Encoder) : Encoder :=
  if s.index_subscribed then enc_index_cb s else s

/-- The state `encoder0` with `cpr = 2000`, circular count 1 and offset 0. -/
def encoder_cpr2000 : Encoder :=
  { encoder0 with config := { encoder0.config with cpr := 2000 }, count_in_cpr := 1 }

/-- The state `encoder0` with the index in use, pre-calibrated, somewhere in a turn. -/
def encoder_indexed : Encoder :=
  { encoder0 with
    config := { encoder0.config with use_index := true, pre_calibrated := true, offset := 120 }
    shadow_count := 70000
    count_in_cpr := 4464
    pos_cpr := 4464
    index_subscribed := true }

/-- A pass of the control loop without fault: the linear count it leaves and the clock. -/
def tick_at (shadow_count ticks_ms : Int) : Tick :=
  { shadow_count := shadow_count, ticks_ms := ticks_ms, foc_ok := true, axis_error := 0 }

/-- The state `encoder0` with `cpr = 2000` (seven pole pairs) and the given circular
count, before an offset calibration. -/
def encoder_cal (count_in_cpr : Int) : Encoder :=
  { encoder0 with
    config := { encoder0.config with cpr := 2000 }
    count_in_cpr := count_in_cpr }

/-- A calibration run in which the encoder moves twice the expected `8·2000/7 ≈ 2286`
counts during the forward scan. -/
def world_double : World where
  arm_foc := true
  lock_start_ms := 0
  lock := [tick_at 0 1001]
  fwd_start_ms := 1001
  fwd := [tick_at 2286 3001, tick_at 4572 5002]
  bwd_start_ms := 5002
  bwd := [tick_at 2286 7002, tick_at 0 9003]

/-- A calibration run on an encoder that counts down when the motor turns forward: from
5 to -2281 in the forward scan and back to 5 in the backward scan. -/
def world_reversed : World where
  arm_foc := true
  lock_start_ms := 0
  lock := [tick_at 5 1001]
  fwd_start_ms := 1001
  fwd := [tick_at (-1138) 3001, tick_at (-2281) 5002]
  bwd_start_ms := 5002
  bwd := [tick_at (-1519) 6335, tick_at (-757) 7669, tick_at 5 9003]

/-- The state without the two fields that a pass of the control loop writes. -/
def calm (s : Encoder) : Encoder :=
  { s with shadow_count := 0, axis := { s.axis with error := 0 } }

/-- The state of `encoder_cal 0` once the motor is armed and the rotor locked. -/
def cal_locked : Encoder :=
  { encoder_cal 0 with axis := { (encoder_cal 0).axis with armed := true } }

/-- The state of `cal_locked` after the forward scan of `world_double`. -/
def cal_scanned : Encoder :=
  { cal_locked with shadow_count := 4572 }

/-- A calibration run in which the rotor barely moves: `shadow_count` is 8 counts further
at the end of the forward scan. -/
def world_still : World where
  arm_foc := true
  lock_start_ms := 0
  lock := [tick_at 0 1001]
  fwd_start_ms := 1001
  fwd := [tick_at 2 3001, tick_at 8 5002]
  bwd_start_ms := 5002
  bwd := [tick_at 2 7002, tick_at 0 9003]

/-- The state of `cal_locked` after the forward scan of `world_still`. -/
def cal_still : Encoder :=
  { cal_locked with shadow_count := 8 }

/-- A lock-in spin that succeeds and leaves `shadow_count` at the given value. -/
def spin_to (shadow_count : Int) : Spin :=
  { status := true, shadow_count := shadow_count, error := 0, axis_error := 0,
    index_cb := false }

/-- The state `encoder_cal 0` with an old `ERROR_UNSTABLE_GAIN` still latched. -/
def encoder_faulty : Encoder :=
  { encoder_cal 0 with error := ERROR_UNSTABLE_GAIN }

/-- The state `encoder0` with a stale interpolation of 7 and a velocity estimate of 8000
counts per second. -/
def encoder_moving : Encoder :=
  { encoder0 with interpolation := 7, vel_estimate := 8000 }

/-- A counter that answers every call of `init` with success. -/
def counter_ok : CounterHw :=
  { present := true, init_ok := true, config_encoder_mode_ok := true,
    start_encoder_ok := true }

/-- The state `encoder0` (not pre-calibrated, index not in use) once it is ready. -/
def encoder_ready : Encoder :=
  { encoder0 with is_ready := true }

/-- A calibration run on an encoder that counts up with the motor: from 0 to 2286 in the
forward scan and back to 1 in the backward scan. -/
def world_forward : World where
  arm_foc := true
  lock_start_ms := 0
  lock := [tick_at 0 1001]
  fwd_start_ms := 1001
  fwd := [tick_at 1143 3001, tick_at 2286 5002]
  bwd_start_ms := 5002
  bwd := [tick_at 1143 7002, tick_at 1 9003]

/-- The state of `cal_locked` after the forward scan of `world_forward`. -/
def cal_forward : Encoder :=
  { cal_locked with shadow_count := 2286 }

/-- The state of `cal_forward` after the direction test and the backward scan of
`world_forward`. -/
def cal_back : Encoder :=
  { cal_locked with shadow_count := 1, axis := { cal_locked.axis with direction := 1 } }

/-- The state `encoder0` at rest at count 10 while the PLL still lags ten counts behind
with a velocity estimate of -1375 counts per second. -/
def encoder_overshoot : Encoder :=
  { encoder0 with
    shadow_count := 10, count_in_cpr := 10, tim_cnt_sample := 10, CNT := 10
    vel_estimate := -1375 }

/-- One tick of the control loop on which the 16-bit counter of the timer reads `cnt`: the
tick samples the counter and runs `update`. -/
def sample_tick (fast_atan2 : ℚ → ℚ → ℚ) (dt : ℚ) (s : Encoder) (cnt : Int) : Encoder :=
  (update fast_atan2 dt (sample_now 0 0 { s with CNT := cnt })).2

/-- A sequence of ticks, one per listed reading of the counter. -/
def sample_run (fast_atan2 : ℚ → ℚ → ℚ) (dt : ℚ) (s : Encoder) (cnts : List Int) : Encoder :=
  cnts.foldl (sample_tick fast_atan2 dt) s

/-- The counter readings of the ramp `0, 1, 2, ..., n`, each taken modulo 65536. -/
def ramp (n : Nat) : List Int :=
  (List.range (n + 1)).map (fun (k : Nat) => (k : Int) % 65536)

/-- The state `encoder0` with `cpr = 2000`, the linear count at 1647 and the circular count
at the largest `int32_t`, which is congruent to 1647 modulo 2000; the counter has moved one
count up since the last tick. -/
def encoder_brim : Encoder :=
  { encoder0 with
    config := { encoder0.config with cpr := 2000 }
    shadow_count := 1647, count_in_cpr := 2147483647, tim_cnt_sample := 1648, CNT := 1648 }

/-- The state `encoder0` with `cpr = 2147483647`, the circular count at `cpr - 1` and the
linear count at -1; the counter has moved five counts up since the last tick. -/
def encoder_widest : Encoder :=
  { encoder0 with
    config := { encoder0.config with cpr := 2147483647 }
    shadow_count := -1, count_in_cpr := 2147483646, tim_cnt_sample := 4, CNT := 4 }

/-- The state `encoder0` with the counter one count ahead of the linear count. -/
def encoder_step : Encoder :=
  { encoder0 with tim_cnt_sample := 1, CNT := 1 }

/-- A calibration run in which `shadow_count` reads 0 while the rotor is held and 2286 on
every pass of both scans. -/
def world_constant : World where
  arm_foc := true
  lock_start_ms := 0
  lock := [tick_at 0 1001]
  fwd_start_ms := 1001
  fwd := [tick_at 2286 3001, tick_at 2286 5002]
  bwd_start_ms := 5002
  bwd := [tick_at 2286 7002, tick_at 2286 9003]

/-- The state `encoder_cal 0` with eight pole pairs and `calib_range` the `float` nearest
to 0.02. -/
def encoder_edge : Encoder :=
  { encoder_cal 0 with
    config := { (encoder_cal 0).config with calib_range := 5368709 / 268435456 }
    axis := { (encoder_cal 0).axis with pole_pairs := 8 } }

/-- A calibration run in which the encoder moves 2040 counts during the forward scan and
back to 0 during the backward scan. -/
def world_edge : World where
  arm_foc := true
  lock_start_ms := 0
  lock := [tick_at 0 1001]
  fwd_start_ms := 1001
  fwd := [tick_at 1020 3001, tick_at 2040 5002]
  bwd_start_ms := 5002
  bwd := [tick_at 1020 7002, tick_at 0 9003]

/-- A lock-in spin that succeeds and leaves `shadow_count` at 5 while the estimator ticks
latch `ERROR_UNSTABLE_GAIN`. -/
def spin_gain : Spin :=
  { status := true, shadow_count := 5, error := ERROR_UNSTABLE_GAIN, axis_error := 0,
    index_cb := false }

/-! ## Facts about rounding -/

theorem log2_fuel_spec : ∀ (f n : Nat), n ≤ f → 0 < n →
    2 ^ log2_fuel f n ≤ n ∧ n < 2 ^ (log2_fuel f n + 1) := by
  intro f
  induction f with
  | zero =>
    intro n h1 h2
    omega
  | succ f ih =>
    intro n h1 h2
    unfold log2_fuel
    split
    · constructor
      · simp only [pow_zero]
        omega
      · simp only [zero_add, pow_one]
        omega
    · have hdiv : n / 2 ≤ f := by omega
      have hpos : 0 < n / 2 := by omega
      obtain ⟨a, b⟩ := ih (n / 2) hdiv hpos
      rw [pow_succ] at b
      constructor
      · rw [pow_succ]
        omega
      · rw [pow_succ, pow_succ]
        omega

theorem ilog2_spec (x : ℚ) (hx : 0 < x) :
    (2 : ℚ) ^ ilog2 x ≤ x ∧ x < (2 : ℚ) ^ (ilog2 x + 1) := by
  have hnum : 0 < x.num := Rat.num_pos.mpr hx
  have hn : 0 < x.num.natAbs := Int.natAbs_pos.mpr (ne_of_gt hnum)
  have hd : 0 < x.den := x.den_pos
  obtain ⟨a1, a2⟩ := log2_fuel_spec x.num.natAbs x.num.natAbs le_rfl hn
  obtain ⟨b1, b2⟩ := log2_fuel_spec x.den x.den le_rfl hd
  have hxe : x = (x.num.natAbs : ℚ) / (x.den : ℚ) := by
    have h1 : ((x.num.natAbs : Nat) : Int) = x.num := Int.natAbs_of_nonneg (le_of_lt hnum)
    have h2 : ((x.num.natAbs : Nat) : ℚ) = (x.num : ℚ) := by
      rw [← Int.cast_natCast, h1]
    rw [h2]
    exact (Rat.num_div_den x).symm
  have hdq : (0 : ℚ) < (x.den : ℚ) := by exact_mod_cast hd
  have a1q : (2 : ℚ) ^ log2_fuel x.num.natAbs x.num.natAbs ≤ (x.num.natAbs : ℚ) := by
    exact_mod_cast a1
  have a2q : (x.num.natAbs : ℚ) < (2 : ℚ) ^ (log2_fuel x.num.natAbs x.num.natAbs + 1) := by
    exact_mod_cast a2
  have b1q : (2 : ℚ) ^ log2_fuel x.den x.den ≤ (x.den : ℚ) := by exact_mod_cast b1
  have b2q : (x.den : ℚ) < (2 : ℚ) ^ (log2_fuel x.den x.den + 1) := by exact_mod_cast b2
  have h2 : (2 : ℚ) ≠ 0 := by norm_num
  have habs : |x| = x := abs_of_pos hx
  unfold ilog2
  simp only [habs]
  generalize log2_fuel x.num.natAbs x.num.natAbs = a at a1q a2q
  generalize log2_fuel x.den x.den = b at b1q b2q
  have hpa : (0 : ℚ) < (2 : ℚ) ^ a := by positivity
  have hpb : (0 : ℚ) < (2 : ℚ) ^ b := by positivity
  split
  · rename_i h
    refine ⟨h, ?_⟩
    have e1 : (2 : ℚ) ^ ((a : Int) - (b : Int) + 1) = (2 : ℚ) ^ (a + 1) / (2 : ℚ) ^ b := by
      have : ((a : Int) - (b : Int) + 1) = ((a + 1 : Nat) : Int) - ((b : Nat) : Int) := by
        push_cast; ring
      rw [this, zpow_sub₀ h2, zpow_natCast, zpow_natCast]
    rw [e1, hxe, div_lt_div_iff₀ hdq hpb]
    calc (x.num.natAbs : ℚ) * (2 : ℚ) ^ b < (2 : ℚ) ^ (a + 1) * (2 : ℚ) ^ b :=
          mul_lt_mul_of_pos_right a2q hpb
      _ ≤ (2 : ℚ) ^ (a + 1) * (x.den : ℚ) :=
          mul_le_mul_of_nonneg_left b1q (by positivity)
  · rename_i h
    have hlt := lt_of_not_le h
    constructor
    · have e1 : (2 : ℚ) ^ ((a : Int) - (b : Int) - 1) = (2 : ℚ) ^ a / (2 : ℚ) ^ (b + 1) := by
        have : ((a : Int) - (b : Int) - 1) = ((a : Nat) : Int) - ((b + 1 : Nat) : Int) := by
          push_cast; ring
        rw [this, zpow_sub₀ h2, zpow_natCast, zpow_natCast]
      rw [e1, hxe, div_le_div_iff₀ (by positivity) hdq]
      calc (2 : ℚ) ^ a * (x.den : ℚ) ≤ (2 : ℚ) ^ a * (2 : ℚ) ^ (b + 1) :=
            mul_le_mul_of_nonneg_left (le_of_lt b2q) (le_of_lt hpa)
        _ ≤ (x.num.natAbs : ℚ) * (2 : ℚ) ^ (b + 1) :=
            mul_le_mul_of_nonneg_right a1q (by positivity)
    · have : (a : Int) - (b : Int) - 1 + 1 = (a : Int) - (b : Int) := by ring
      rw [this]
      exact hlt

theorem round_even_bounds (x : ℚ) : ⌊x⌋ ≤ round_even x ∧ round_even x ≤ ⌊x⌋ + 1 := by
  unfold round_even
  dsimp only
  split_ifs <;> constructor <;> omega

theorem round_even_intCast (n : Int) : round_even (n : ℚ) = n := by
  unfold round_even
  simp

theorem round_even_mono {x y : ℚ} (h : x ≤ y) : round_even x ≤ round_even y := by
  have hf : ⌊x⌋ ≤ ⌊y⌋ := Int.floor_mono h
  rcases lt_or_eq_of_le hf with hlt | heq
  · have h1 := (round_even_bounds x).2
    have h2 := (round_even_bounds y).1
    omega
  · unfold round_even
    dsimp only
    rw [← heq]
    split_ifs <;> first | omega | (exfalso; linarith)

theorem round_to_nonneg (p : Nat) (emin : Int) {x : ℚ} (hx : 0 ≤ x) :
    0 ≤ round_to p emin x := by
  unfold round_to
  split
  · exact le_refl _
  · dsimp only
    have hp : (0 : ℚ) < (2 : ℚ) ^ (max (ilog2 x - ((p : Int) - 1)) emin) := by positivity
    have h0 : (0 : ℚ) ≤ x / (2 : ℚ) ^ (max (ilog2 x - ((p : Int) - 1)) emin) :=
      div_nonneg hx (le_of_lt hp)
    have h1 : round_even 0 ≤ round_even (x / (2 : ℚ) ^ (max (ilog2 x - ((p : Int) - 1)) emin)) :=
      round_even_mono h0
    have h2 : round_even 0 = 0 := by
      have := round_even_intCast 0
      simpa using this
    rw [h2] at h1
    have h3 : (0 : ℚ) ≤ (round_even (x / (2 : ℚ) ^ (max (ilog2 x - ((p : Int) - 1)) emin)) : ℚ) := by
      exact_mod_cast h1
    exact mul_nonneg h3 (le_of_lt hp)

theorem round_to_mono (p : Nat) (emin : Int) (hp : 1 ≤ p) {x y : ℚ} (hx : 0 ≤ x)
    (hxy : x ≤ y) : round_to p emin x ≤ round_to p emin y := by
  rcases eq_or_lt_of_le hx with h0 | hpos
  · have : round_to p emin x = 0 := by
      unfold round_to
      rw [if_pos h0.symm]
    rw [this]
    exact round_to_nonneg p emin (le_trans hx hxy)
  · have hy : 0 < y := lt_of_lt_of_le hpos hxy
    obtain ⟨lx, ux⟩ := ilog2_spec x hpos
    obtain ⟨ly, uy⟩ := ilog2_spec y hy
    have h2 : (1 : ℚ) < 2 := by norm_num
    have h20 : (2 : ℚ) ≠ 0 := by norm_num
    have hlog : ilog2 x ≤ ilog2 y := by
      have : (2 : ℚ) ^ ilog2 x < (2 : ℚ) ^ (ilog2 y + 1) :=
        lt_of_le_of_lt lx (lt_of_le_of_lt hxy uy)
      have := (zpow_lt_zpow_iff_right₀ h2).1 this
      omega
    unfold round_to
    rw [if_neg (ne_of_gt hpos), if_neg (ne_of_gt hy)]
    dsimp only
    generalize hex : max (ilog2 x - ((p : Int) - 1)) emin = ex
    generalize hey : max (ilog2 y - ((p : Int) - 1)) emin = ey
    have hexy : ex ≤ ey := by
      rw [← hex, ← hey]
      exact max_le_max (by omega) le_rfl
    have pex : (0 : ℚ) < (2 : ℚ) ^ ex := by positivity
    have pey : (0 : ℚ) < (2 : ℚ) ^ ey := by positivity
    rcases eq_or_lt_of_le hexy with heq | hlt
    · rw [← heq]
      have h1 : x / (2 : ℚ) ^ ex ≤ y / (2 : ℚ) ^ ex := div_le_div_of_nonneg_right hxy (le_of_lt pex)
      have h3 : (round_even (x / (2 : ℚ) ^ ex) : ℚ) ≤ (round_even (y / (2 : ℚ) ^ ex) : ℚ) := by
        exact_mod_cast round_even_mono h1
      exact mul_le_mul_of_nonneg_right h3 (le_of_lt pex)
    · have hey2 : ey = ilog2 y - ((p : Int) - 1) := by
        rw [← hey]
        apply max_eq_left
        have : emin ≤ ex := by rw [← hex]; exact le_max_right _ _
        by_contra hc
        have : max (ilog2 y - ((p : Int) - 1)) emin = emin := max_eq_right (by omega)
        omega
      have hex2 : ilog2 x - ((p : Int) - 1) ≤ ex := by rw [← hex]; exact le_max_left _ _
      -- the rounded `x` is at most `2 ^ (ex + p)`
      have hxle : x / (2 : ℚ) ^ ex ≤ (((2 : Int) ^ p : Int) : ℚ) := by
        rw [div_le_iff₀ pex]
        have e1 : (((2 : Int) ^ p : Int) : ℚ) * (2 : ℚ) ^ ex = (2 : ℚ) ^ ((p : Int) + ex) := by
          push_cast
          rw [zpow_add₀ h20, zpow_natCast]
        rw [e1]
        have : (2 : ℚ) ^ (ilog2 x + 1) ≤ (2 : ℚ) ^ ((p : Int) + ex) :=
          zpow_le_zpow_right₀ (le_of_lt h2) (by omega)
        exact le_trans (le_of_lt ux) this
      have hrx : (round_even (x / (2 : ℚ) ^ ex) : ℚ) ≤ (((2 : Int) ^ p : Int) : ℚ) := by
        have := round_even_mono hxle
        rw [round_even_intCast] at this
        exact_mod_cast this
      have hfx : (round_even (x / (2 : ℚ) ^ ex) : ℚ) * (2 : ℚ) ^ ex ≤ (2 : ℚ) ^ ((p : Int) + ex) := by
        have e1 : (((2 : Int) ^ p : Int) : ℚ) * (2 : ℚ) ^ ex = (2 : ℚ) ^ ((p : Int) + ex) := by
          push_cast
          rw [zpow_add₀ h20, zpow_natCast]
        rw [← e1]
        exact mul_le_mul_of_nonneg_right hrx (le_of_lt pex)
      -- the rounded `y` is at least `2 ^ ilog2 y`
      have hp1 : ((p - 1 : Nat) : Int) = (p : Int) - 1 := by omega
      have hyge : (((2 : Int) ^ (p - 1) : Int) : ℚ) ≤ y / (2 : ℚ) ^ ey := by
        rw [le_div_iff₀ pey]
        have e1 : (((2 : Int) ^ (p - 1) : Int) : ℚ) * (2 : ℚ) ^ ey = (2 : ℚ) ^ (ilog2 y) := by
          push_cast
          rw [← zpow_natCast, ← zpow_add₀ h20, hp1, hey2]
          congr 1
          ring
        rw [e1]
        exact ly
      have hry : (((2 : Int) ^ (p - 1) : Int) : ℚ) ≤ (round_even (y / (2 : ℚ) ^ ey) : ℚ) := by
        have := round_even_mono hyge
        rw [round_even_intCast] at this
        exact_mod_cast this
      have hfy : (2 : ℚ) ^ (ilog2 y) ≤ (round_even (y / (2 : ℚ) ^ ey) : ℚ) * (2 : ℚ) ^ ey := by
        have e1 : (((2 : Int) ^ (p - 1) : Int) : ℚ) * (2 : ℚ) ^ ey = (2 : ℚ) ^ (ilog2 y) := by
          push_cast
          rw [← zpow_natCast, ← zpow_add₀ h20, hp1, hey2]
          congr 1
          ring
        rw [← e1]
        exact mul_le_mul_of_nonneg_right hry (le_of_lt pey)
      have hmid : (2 : ℚ) ^ ((p : Int) + ex) ≤ (2 : ℚ) ^ (ilog2 y) :=
        zpow_le_zpow_right₀ (le_of_lt h2) (by omega)
      exact le_trans hfx (le_trans hmid hfy)

theorem fl32_nonneg {x : ℚ} (hx : 0 ≤ x) : 0 ≤ fl32 x := round_to_nonneg 24 (-149) hx

theorem fl32_mono {x y : ℚ} (hx : 0 ≤ x) (hxy : x ≤ y) : fl32 x ≤ fl32 y :=
  round_to_mono 24 (-149) (by decide) hx hxy

theorem fl32_pos {x : ℚ} (hx : 1 ≤ x) : 1 ≤ fl32 x := by
  have h := fl32_mono (by norm_num : (0 : ℚ) ≤ 1) hx
  have h1 : fl32 1 = 1 := by decide!
  rw [h1] at h
  exact h

/-! ## Basic facts about the operations -/

theorem mod_nonneg (a : Int) {n : Int} (h : 0 < n) : 0 ≤ mod a n :=
  Int.emod_nonneg a (ne_of_gt h)

theorem mod_lt (a : Int) {n : Int} (h : 0 < n) : mod a n < n :=
  Int.emod_lt_of_pos a h

theorem toInt32_of_isInt32 {x : Int} (h : isInt32 x) : toInt32 x = x := by
  unfold isInt32 at h
  unfold toInt32
  omega

theorem isInt32_toInt32 (x : Int) : isInt32 (toInt32 x) := by
  unfold isInt32 toInt32
  omega

theorem check_gain_eq (dt : ℚ) (s : Encoder) :
    check_gain dt s = { s with error := (check_gain dt s).error } := by
  unfold check_gain set_error
  split <;> rfl

theorem delta_enc_check_gain (fa : ℚ → ℚ → ℚ) (dt : ℚ) (s : Encoder) :
    delta_enc fa (check_gain dt s) = delta_enc fa s := by
  rw [check_gain_eq]
  rfl

theorem update_of_ok (fa : ℚ → ℚ → ℚ) (dt : ℚ) (s : Encoder) {d : Int}
    (h : delta_enc fa s = Except.ok d) :
    update fa dt s = (true, update_state dt d (check_gain dt s)) := by
  unfold update
  simp only [delta_enc_check_gain, h]

theorem update_of_error (fa : ℚ → ℚ → ℚ) (dt : ℚ) (s : Encoder) {e : Nat}
    (h : delta_enc fa s = Except.error e) :
    update fa dt s = (false, set_error e (check_gain dt s)) := by
  unfold update
  simp only [delta_enc_check_gain, h]

theorem update_true_iff (fa : ℚ → ℚ → ℚ) (dt : ℚ) (s : Encoder) :
    (update fa dt s).1 = true ↔ ∃ d, delta_enc fa s = Except.ok d := by
  cases h : delta_enc fa s with
  | error e => simp [update_of_error fa dt s h]
  | ok d => simp [update_of_ok fa dt s h]

theorem update_state_count_in_cpr (dt : ℚ) (d : Int) (s : Encoder) :
    (update_state dt d s).count_in_cpr = mod (toInt32 (s.count_in_cpr + d)) s.config.cpr := rfl

theorem update_state_shadow_count (dt : ℚ) (d : Int) (s : Encoder) :
    (update_state dt d s).shadow_count = toInt32 (s.shadow_count + d) := rfl

theorem update_state_config (dt : ℚ) (d : Int) (s : Encoder) :
    (update_state dt d s).config = s.config := rfl

theorem check_gain_config (dt : ℚ) (s : Encoder) : (check_gain dt s).config = s.config := by
  rw [check_gain_eq]

theorem check_gain_count_in_cpr (dt : ℚ) (s : Encoder) :
    (check_gain dt s).count_in_cpr = s.count_in_cpr := by
  rw [check_gain_eq]

theorem check_gain_shadow_count (dt : ℚ) (s : Encoder) :
    (check_gain dt s).shadow_count = s.shadow_count := by
  rw [check_gain_eq]

/-! ## C1: bound of the circular count -/

/-- C1 (as amended): for every state with `cpr > 0`, the circular count lies in `[0, cpr)`
after every `update` that returns true, after `set_circular_count n b` for every `n`, `b`,
and after the index callback when `use_index` is set; with `use_index` off the callback
leaves `count_in_cpr` as it was, so the bound holds after it exactly when it held
before. -/
theorem circular_count_bound (fa : ℚ → ℚ → ℚ) (dt : ℚ) (s : Encoder) (n : Int) (b : Bool)
    (hcpr : 0 < s.config.cpr) :
    ((update fa dt s).1 = true → count_in_range (update fa dt s).2)
    ∧ count_in_range (set_circular_count n b s)
    ∧ (s.config.use_index = true → count_in_range (enc_index_cb s))
    ∧ (s.config.use_index = false →
        (enc_index_cb s).count_in_cpr = s.count_in_cpr
        ∧ (count_in_range (enc_index_cb s) ↔ count_in_range s)) := by
  refine ⟨?_, ?_, ?_, ?_⟩
  · intro h
    obtain ⟨d, hd⟩ := (update_true_iff fa dt s).1 h
    rw [update_of_ok fa dt s hd]
    unfold count_in_range
    simp only [update_state_count_in_cpr, update_state_config, check_gain_config]
    exact ⟨mod_nonneg _ hcpr, mod_lt _ hcpr⟩
  · unfold count_in_range set_circular_count
    cases b
    · exact ⟨mod_nonneg _ hcpr, mod_lt _ hcpr⟩
    · exact ⟨mod_nonneg _ hcpr, mod_lt _ hcpr⟩
  · intro hu
    have h0 : count_in_range (set_circular_count 0 false s) :=
      ⟨mod_nonneg _ hcpr, mod_lt _ hcpr⟩
    unfold count_in_range at h0 ⊢
    unfold enc_index_cb
    simp only [hu, if_true]
    split <;> split <;> exact h0
  · intro hu
    unfold count_in_range enc_index_cb
    simp [hu]

/-- C1, witness: `circular_count_bound` at the state `encoder0` (cpr 8192, `use_index`
off) and at `encoder_indexed` (`use_index` set). -/
theorem circular_count_bound_witness :
    (0 : Int) < encoder0.config.cpr
    ∧ (count_in_range (update atan2_zero 0 encoder0).2
      ∧ count_in_range (set_circular_count 70000 true encoder0)
      ∧ (enc_index_cb encoder0).count_in_cpr = encoder0.count_in_cpr)
    ∧ count_in_range (enc_index_cb encoder_indexed) :=
  have h := circular_count_bound atan2_zero 0 encoder0 70000 true (by decide)
  ⟨by decide,
   ⟨h.1 ((update_true_iff atan2_zero 0 encoder0).2 ⟨_, rfl⟩), h.2.1, (h.2.2.2 rfl).1⟩,
   (circular_count_bound atan2_zero 0 encoder_indexed 0 false (by decide)).2.2.1 rfl⟩

/-- C1, counterexample: with `use_index` off and `cpr = 8192`, a circular count of 9000
(left from a larger `cpr`) is still 9000 after the index callback, outside `[0, cpr)`. -/
theorem circular_count_bound_counterexample :
    (0 : Int) < ({ encoder0 with count_in_cpr := 9000 } : Encoder).config.cpr
    ∧ ¬ count_in_range (enc_index_cb { encoder0 with count_in_cpr := 9000 }) := by
  decide

/-! ## C2: 16-bit wrap of the hardware counter -/

theorem toInt16_delta (p d : Int) (hd : -32768 ≤ d ∧ d ≤ 32767) :
    toInt16 (toInt16 (toInt16 ((p + d) % 65536)) - toInt16 p) = d := by
  unfold toInt16
  omega

theorem delta_enc_incremental (fa : ℚ → ℚ → ℚ) (s : Encoder)
    (hmode : s.config.mode = Mode.MODE_INCREMENTAL) :
    delta_enc fa s
      = Except.ok (toInt16 (toInt16 s.tim_cnt_sample - toInt16 s.shadow_count)) := by
  unfold delta_enc
  rw [hmode]

theorem sample_now_incremental (vs vc : ℚ) (s : Encoder)
    (hmode : s.config.mode = Mode.MODE_INCREMENTAL) :
    sample_now vs vc s = { s with tim_cnt_sample := toInt16 s.CNT } := by
  unfold sample_now
  rw [hmode]

theorem update_sample_incremental (fa : ℚ → ℚ → ℚ) (dt vs vc : ℚ) (s : Encoder) (p d : Int)
    (hmode : s.config.mode = Mode.MODE_INCREMENTAL)
    (hp : s.shadow_count = p) (hd : -32768 ≤ d ∧ d ≤ 32767)
    (hcnt : s.CNT = (p + d) % 65536) :
    update fa dt (sample_now vs vc s)
      = (true, update_state dt d (check_gain dt (sample_now vs vc s))) := by
  apply update_of_ok
  rw [sample_now_incremental vs vc s hmode]
  have h := delta_enc_incremental fa ({ s with tim_cnt_sample := toInt16 s.CNT }) hmode
  rw [h]
  simp only [hcnt, hp, toInt16_delta p d hd]

theorem incremental_tick_spec (fa : ℚ → ℚ → ℚ) (dt : ℚ) (s : Encoder) (d : Int)
    (hmode : s.config.mode = Mode.MODE_INCREMENTAL)
    (hsync : s.CNT = s.shadow_count % 65536)
    (hd : -32768 ≤ d ∧ d ≤ 32767) (hfit : isInt32 (s.shadow_count + d)) :
    (incremental_tick fa dt s d).config.mode = Mode.MODE_INCREMENTAL
    ∧ (incremental_tick fa dt s d).shadow_count = s.shadow_count + d
    ∧ (incremental_tick fa dt s d).CNT = (s.shadow_count + d) % 65536 := by
  have hcnt : ({ s with CNT := (s.CNT + d) % 65536 } : Encoder).CNT
      = (s.shadow_count + d) % 65536 := by
    show (s.CNT + d) % 65536 = (s.shadow_count + d) % 65536
    rw [hsync]
    omega
  have hmode1 : ({ s with CNT := (s.CNT + d) % 65536 } : Encoder).config.mode
      = Mode.MODE_INCREMENTAL := hmode
  have hup := update_sample_incremental fa dt 0 0 ({ s with CNT := (s.CNT + d) % 65536 })
    s.shadow_count d hmode1 rfl hd hcnt
  have hsn := sample_now_incremental 0 0 ({ s with CNT := (s.CNT + d) % 65536 }) hmode1
  show (update fa dt (sample_now 0 0 { s with CNT := (s.CNT + d) % 65536 })).2.config.mode = _
    ∧ (update fa dt (sample_now 0 0 { s with CNT := (s.CNT + d) % 65536 })).2.shadow_count = _
    ∧ (update fa dt (sample_now 0 0 { s with CNT := (s.CNT + d) % 65536 })).2.CNT = _
  rw [hup]
  refine ⟨?_, ?_, ?_⟩
  · rw [update_state_config, check_gain_config, hsn]
    exact hmode
  · rw [update_state_shadow_count, check_gain_shadow_count, hsn]
    exact toInt32_of_isInt32 hfit
  · show (check_gain dt (sample_now 0 0 _)).CNT = _
    rw [check_gain_eq, hsn]
    exact hcnt

theorem incremental_run_spec (fa : ℚ → ℚ → ℚ) (dt : ℚ) (ds : List Int) :
    ∀ s : Encoder, s.config.mode = Mode.MODE_INCREMENTAL →
      s.CNT = s.shadow_count % 65536 → moves_fit s.shadow_count ds →
      (incremental_run fa dt s ds).shadow_count = s.shadow_count + ds.sum := by
  induction ds with
  | nil =>
    intro s _ _ _
    simp [incremental_run]
  | cons d ds ih =>
    intro s hmode hsync hfit
    obtain ⟨hd, hfit1, hrest⟩ := hfit
    obtain ⟨h1, h2, h3⟩ := incremental_tick_spec fa dt s d hmode hsync hd hfit1
    have hstep := ih (incremental_tick fa dt s d) h1 (by rw [h3, h2]) (by rw [h2]; exact hrest)
    unfold incremental_run at hstep ⊢
    rw [List.foldl_cons, hstep, h2, List.sum_cons]
    ring

/-- C2 (as amended): in INCREMENTAL mode, for every `shadow_count = p` and every movement
`d` with `-32768 ≤ d ≤ 32767` such that `p + d` is still an `int32_t`, if the hardware
counter holds `(p + d) mod 2^16` when `sample_now` reads it, `update` returns true and
leaves `shadow_count = p + d`; and over a sequence of ticks with such movements, started
with the counter in step with `shadow_count`, `shadow_count` changes by the sum of the
movements. -/
theorem incremental_wrap_robust (fa : ℚ → ℚ → ℚ) (dt vs vc : ℚ) (s : Encoder) (p d : Int)
    (ds : List Int)
    (hmode : s.config.mode = Mode.MODE_INCREMENTAL) (hp : s.shadow_count = p) :
    (-32768 ≤ d ∧ d ≤ 32767 → isInt32 (p + d) → s.CNT = (p + d) % 65536 →
      (update fa dt (sample_now vs vc s)).1 = true
      ∧ (update fa dt (sample_now vs vc s)).2.shadow_count = p + d)
    ∧ (s.CNT = p % 65536 → moves_fit p ds →
      (incremental_run fa dt s ds).shadow_count = p + ds.sum) := by
  constructor
  · intro hd hfit hcnt
    rw [update_sample_incremental fa dt vs vc s p d hmode hp hd hcnt]
    refine ⟨rfl, ?_⟩
    rw [update_state_shadow_count, check_gain_shadow_count,
      sample_now_incremental vs vc s hmode]
    show toInt32 (s.shadow_count + d) = p + d
    rw [hp]
    exact toInt32_of_isInt32 hfit
  · intro hcnt hfits
    subst hp
    exact incremental_run_spec fa dt ds s hmode hcnt hfits

/-- C2, witness: from `shadow_count = 65535` with the counter wrapped to 0, one tick gives
65536; from `shadow_count = 65535` with the counter at 65535, the movements 1, 1, -3, 2
across the wrap give 65536. -/
theorem incremental_wrap_robust_witness :
    ((update atan2_zero 0 (sample_now 0 0
        { encoder0 with shadow_count := 65535, CNT := 0 })).1 = true
      ∧ (update atan2_zero 0 (sample_now 0 0
        { encoder0 with shadow_count := 65535, CNT := 0 })).2.shadow_count = 65535 + 1)
    ∧ (incremental_run atan2_zero 0
        { encoder0 with shadow_count := 65535, CNT := 65535 } [1, 1, -3, 2]).shadow_count
        = 65535 + [1, 1, -3, 2].sum :=
  ⟨(incremental_wrap_robust atan2_zero 0 0 0
      { encoder0 with shadow_count := 65535, CNT := 0 } 65535 1 []
      rfl rfl).1 (by decide) (by decide) (by decide),
   (incremental_wrap_robust atan2_zero 0 0 0
      { encoder0 with shadow_count := 65535, CNT := 65535 } 65535 1 [1, 1, -3, 2]
      rfl rfl).2 (by decide) (by simp [moves_fit, isInt32])⟩

/-- C2, counterexample: with `shadow_count = p = 2147483647` and a movement `d = 1`, the
counter holding `(p + d) mod 2^16`, `update` returns true but `shadow_count` is not
`p + d = 2147483648`, which no `int32_t` holds: it wraps to `-2147483648`. -/
theorem incremental_wrap_robust_counterexample :
    encoder_top.config.mode = Mode.MODE_INCREMENTAL
    ∧ encoder_top.CNT = (encoder_top.shadow_count + 1) % 65536
    ∧ (update atan2_zero 0 (sample_now 0 0 encoder_top)).1 = true
    ∧ (update atan2_zero 0 (sample_now 0 0 encoder_top)).2.shadow_count = -2147483648
    ∧ (update atan2_zero 0 (sample_now 0 0 encoder_top)).2.shadow_count
        ≠ encoder_top.shadow_count + 1 := by
  have h := update_sample_incremental atan2_zero 0 0 0 encoder_top 2147483647 1
    rfl rfl (by decide) (by decide)
  rw [h]
  refine ⟨rfl, by decide, rfl, ?_, ?_⟩
  · rw [update_state_shadow_count, check_gain_shadow_count]
    decide
  · rw [update_state_shadow_count, check_gain_shadow_count]
    decide

/-! ## C3: Hall transitions -/

theorem decode_hall_hall_code (k : Int) (hk : 0 ≤ k ∧ k ≤ 5) :
    decode_hall (hall_code k) = some k := by
  obtain ⟨h0, h5⟩ := hk
  interval_cases k <;> rfl

theorem delta_enc_hall (fa : ℚ → ℚ → ℚ) (s : Encoder) (h : Int)
    (hmode : s.config.mode = Mode.MODE_HALL) (hdec : decode_hall s.hall_state = some h) :
    delta_enc fa s = Except.ok
      (if mod (toInt32 (h - s.count_in_cpr)) 6 > 3
        then toInt32 (mod (toInt32 (h - s.count_in_cpr)) 6 - 6)
        else mod (toInt32 (h - s.count_in_cpr)) 6) := by
  unfold delta_enc
  rw [hmode]
  simp only [hdec]

theorem hall_delta_value (h c δ : Int) (hh : 0 ≤ h ∧ h ≤ 5)
    (hc : -2147483642 ≤ c ∧ c ≤ 2147483647)
    (hδ : δ = if (h - c) % 6 > 3 then (h - c) % 6 - 6 else (h - c) % 6) :
    (if mod (toInt32 (h - c)) 6 > 3 then toInt32 (mod (toInt32 (h - c)) 6 - 6)
      else mod (toInt32 (h - c)) 6) = δ := by
  have h1 : toInt32 (h - c) = h - c := toInt32_of_isInt32 (by unfold isInt32; omega)
  have h2 : toInt32 ((h - c) % 6 - 6) = (h - c) % 6 - 6 :=
    toInt32_of_isInt32 (by unfold isInt32; omega)
  unfold mod
  rw [h1, h2, hδ]

theorem delta_enc_hall_value (fa : ℚ → ℚ → ℚ) (s : Encoder) (h δ : Int)
    (hmode : s.config.mode = Mode.MODE_HALL) (hdec : decode_hall s.hall_state = some h)
    (hh : 0 ≤ h ∧ h ≤ 5) (hc : -2147483642 ≤ s.count_in_cpr ∧ s.count_in_cpr ≤ 2147483647)
    (hδ : δ = if (h - s.count_in_cpr) % 6 > 3 then (h - s.count_in_cpr) % 6 - 6
      else (h - s.count_in_cpr) % 6) :
    delta_enc fa s = Except.ok δ := by
  rw [delta_enc_hall fa s h hmode hdec, hall_delta_value h s.count_in_cpr δ hh hc hδ]

theorem hall_tick_spec (fa : ℚ → ℚ → ℚ) (dt : ℚ) (s : Encoder) (code : Nat)
    (cpr k sh h δ : Int) (hs : hall_at s cpr k sh) (hdec : decode_hall code = some h)
    (hh : 0 ≤ h ∧ h ≤ 5) (hk : 0 ≤ k ∧ k ≤ 5)
    (hδ : δ = if (h - k) % 6 > 3 then (h - k) % 6 - 6 else (h - k) % 6)
    (hfit : isInt32 (sh + δ)) :
    (hall_tick fa dt s code).1 = some δ
    ∧ hall_at (hall_tick fa dt s code).2 cpr ((k + δ) % cpr) (sh + δ) := by
  obtain ⟨hmode, hcpr, hcount, hshadow⟩ := hs
  have hmode1 : ({ s with hall_state := code } : Encoder).config.mode = Mode.MODE_HALL := hmode
  have hcount1 : ({ s with hall_state := code } : Encoder).count_in_cpr = k := hcount
  have hd : delta_enc fa ({ s with hall_state := code }) = Except.ok δ := by
    apply delta_enc_hall_value fa _ h δ hmode1 hdec hh
    · rw [hcount1]; omega
    · rw [hcount1]; exact hδ
  have hup := update_of_ok fa dt ({ s with hall_state := code }) hd
  show (delta_enc fa ({ s with hall_state := code })).toOption = some δ
    ∧ hall_at (update fa dt ({ s with hall_state := code })).2 cpr ((k + δ) % cpr) (sh + δ)
  rw [hup, hd]
  refine ⟨rfl, ?_, ?_, ?_, ?_⟩
  · rw [update_state_config, check_gain_config]; exact hmode
  · rw [update_state_config, check_gain_config]; exact hcpr
  · rw [update_state_count_in_cpr, check_gain_count_in_cpr, check_gain_config]
    show mod (toInt32 (s.count_in_cpr + δ)) s.config.cpr = (k + δ) % cpr
    rw [hcount, hcpr]
    have : toInt32 (k + δ) = k + δ := by
      apply toInt32_of_isInt32
      unfold isInt32
      rw [hδ]
      split <;> omega
    rw [this]
    rfl
  · rw [update_state_shadow_count, check_gain_shadow_count]
    show toInt32 (s.shadow_count + δ) = sh + δ
    rw [hshadow]
    exact toInt32_of_isInt32 hfit

theorem hall_run_cons (fa : ℚ → ℚ → ℚ) (dt : ℚ) (s : Encoder) (code : Nat) (codes : List Nat) :
    hall_run fa dt s (code :: codes)
      = ((hall_tick fa dt s code).1 :: (hall_run fa dt (hall_tick fa dt s code).2 codes).1,
         (hall_run fa dt (hall_tick fa dt s code).2 codes).2) := rfl

theorem hall_cycle_spec (fa : ℚ → ℚ → ℚ) (dt : ℚ) (s : Encoder) (cpr sh : Int)
    (hs : hall_at s cpr 0 sh) (hcpr : 6 ≤ cpr) (hsh : isInt32 sh) (hsh6 : isInt32 (sh + 6)) :
    (hall_run fa dt s hall_cycle).1
        = [some 0, some 1, some 1, some 1, some 1, some 1, some 1]
    ∧ hall_at (hall_run fa dt s hall_cycle).2 cpr (6 % cpr) (sh + 6) := by
  unfold isInt32 at hsh hsh6
  have fit : ∀ j : Int, 0 ≤ j → j ≤ 6 → isInt32 (sh + j) := by
    intro j h0 h6
    unfold isInt32
    omega
  obtain ⟨d1, a1⟩ := hall_tick_spec fa dt s 0b001 cpr 0 sh 0 0 hs rfl
    (by decide) (by decide) (by decide) (fit 0 (by decide) (by decide))
  have e1 : (0 + 0) % cpr = 0 :=
    Int.emod_eq_of_lt (by decide) (by omega)
  rw [e1] at a1
  obtain ⟨d2, a2⟩ := hall_tick_spec fa dt _ 0b011 cpr 0 (sh + 0) 1 1 a1 rfl
    (by decide) (by decide) (by decide) (by rw [add_assoc]; exact fit _ (by decide) (by decide))
  have e2 : (0 + 1) % cpr = 1 :=
    Int.emod_eq_of_lt (by decide) (by omega)
  rw [e2, add_assoc] at a2
  obtain ⟨d3, a3⟩ := hall_tick_spec fa dt _ 0b010 cpr 1 (sh + (0 + 1)) 2 1 a2 rfl
    (by decide) (by decide) (by decide) (by rw [add_assoc]; exact fit _ (by decide) (by decide))
  have e3 : (1 + 1) % cpr = 2 :=
    Int.emod_eq_of_lt (by decide) (by omega)
  rw [e3, add_assoc] at a3
  obtain ⟨d4, a4⟩ := hall_tick_spec fa dt _ 0b110 cpr 2 (sh + (0 + 1 + 1)) 3 1 a3 rfl
    (by decide) (by decide) (by decide) (by rw [add_assoc]; exact fit _ (by decide) (by decide))
  have e4 : (2 + 1) % cpr = 3 :=
    Int.emod_eq_of_lt (by decide) (by omega)
  rw [e4, add_assoc] at a4
  obtain ⟨d5, a5⟩ := hall_tick_spec fa dt _ 0b100 cpr 3 (sh + (0 + 1 + 1 + 1)) 4 1 a4 rfl
    (by decide) (by decide) (by decide) (by rw [add_assoc]; exact fit _ (by decide) (by decide))
  have e5 : (3 + 1) % cpr = 4 :=
    Int.emod_eq_of_lt (by decide) (by omega)
  rw [e5, add_assoc] at a5
  obtain ⟨d6, a6⟩ := hall_tick_spec fa dt _ 0b101 cpr 4 (sh + (0 + 1 + 1 + 1 + 1)) 5 1 a5 rfl
    (by decide) (by decide) (by decide) (by rw [add_assoc]; exact fit _ (by decide) (by decide))
  have e6 : (4 + 1) % cpr = 5 :=
    Int.emod_eq_of_lt (by decide) (by omega)
  rw [e6, add_assoc] at a6
  obtain ⟨d7, a7⟩ := hall_tick_spec fa dt _ 0b001 cpr 5 (sh + (0 + 1 + 1 + 1 + 1 + 1)) 0 1 a6 rfl
    (by decide) (by decide) (by decide) (by rw [add_assoc]; exact fit _ (by decide) (by decide))
  rw [add_assoc] at a7
  unfold hall_cycle
  simp only [hall_run_cons, hall_run, d1, d2, d3, d4, d5, d6, d7]
  exact ⟨trivial, a7⟩

/-- C3 (as amended): in HALL mode, for every sector `A` in `0..5` with `count_in_cpr`
congruent to `A` modulo 6 (and `count_in_cpr ≥ -2^31 + 6`, so that the 32-bit subtraction
`hall_cnt - count_in_cpr_` cannot overflow): if `hall_state` is the code of sector
`(A+1) mod 6`, `update` computes `delta_enc = +1`, returns true, and `shadow_count` rises by
exactly 1 when `shadow_count + 1` is an `int32_t`; if it is the code of `(A-1) mod 6`,
`delta_enc = -1` and `shadow_count` falls by 1 when `shadow_count - 1` is an `int32_t`.
With `cpr ≥ 6`, the code sequence `001,011,010,110,100,101,001` fed from `count_in_cpr = 0`
gives the deltas `0,+1,+1,+1,+1,+1,+1`: the six transitions give +1 each and
`shadow_count` advances by 6 (when that is an `int32_t`). -/
theorem hall_symmetry (fa : ℚ → ℚ → ℚ) (dt : ℚ) (s : Encoder) (A : Int)
    (hmode : s.config.mode = Mode.MODE_HALL) (_hA : 0 ≤ A ∧ A ≤ 5)
    (hc : s.count_in_cpr % 6 = A)
    (hsub : -2147483642 ≤ s.count_in_cpr ∧ s.count_in_cpr ≤ 2147483647) :
    (s.hall_state = hall_code ((A + 1) % 6) →
      delta_enc fa s = Except.ok 1 ∧ (update fa dt s).1 = true
      ∧ (isInt32 (s.shadow_count + 1) →
          (update fa dt s).2.shadow_count = s.shadow_count + 1))
    ∧ (s.hall_state = hall_code ((A - 1) % 6) →
      delta_enc fa s = Except.ok (-1) ∧ (update fa dt s).1 = true
      ∧ (isInt32 (s.shadow_count - 1) →
          (update fa dt s).2.shadow_count = s.shadow_count - 1))
    ∧ (s.count_in_cpr = 0 → 6 ≤ s.config.cpr →
        isInt32 s.shadow_count → isInt32 (s.shadow_count + 6) →
      (hall_run fa dt s hall_cycle).1
          = [some 0, some 1, some 1, some 1, some 1, some 1, some 1]
      ∧ (hall_run fa dt s hall_cycle).2.shadow_count = s.shadow_count + 6
      ∧ (hall_run fa dt s hall_cycle).2.count_in_cpr = 6 % s.config.cpr) := by
  refine ⟨?_, ?_, ?_⟩
  · intro hstate
    have hdec : decode_hall s.hall_state = some ((A + 1) % 6) := by
      rw [hstate]; exact decode_hall_hall_code _ (by omega)
    have hd : delta_enc fa s = Except.ok 1 :=
      delta_enc_hall_value fa s ((A + 1) % 6) 1 hmode hdec (by omega) hsub
        (by split <;> omega)
    refine ⟨hd, ?_, ?_⟩
    · rw [update_of_ok fa dt s hd]
    · intro hfit
      rw [update_of_ok fa dt s hd]
      show (update_state dt 1 (check_gain dt s)).shadow_count = _
      rw [update_state_shadow_count, check_gain_shadow_count]
      exact toInt32_of_isInt32 hfit
  · intro hstate
    have hdec : decode_hall s.hall_state = some ((A - 1) % 6) := by
      rw [hstate]; exact decode_hall_hall_code _ (by omega)
    have hd : delta_enc fa s = Except.ok (-1) :=
      delta_enc_hall_value fa s ((A - 1) % 6) (-1) hmode hdec (by omega) hsub
        (by split <;> omega)
    refine ⟨hd, ?_, ?_⟩
    · rw [update_of_ok fa dt s hd]
    · intro hfit
      rw [update_of_ok fa dt s hd]
      show (update_state dt (-1) (check_gain dt s)).shadow_count = _
      rw [update_state_shadow_count, check_gain_shadow_count]
      exact toInt32_of_isInt32 hfit
  · intro h0 hcpr hsh hsh6
    obtain ⟨hdeltas, -, -, hcount, hshadow⟩ :=
      hall_cycle_spec fa dt s s.config.cpr s.shadow_count ⟨hmode, rfl, h0, rfl⟩ hcpr hsh hsh6
    exact ⟨hdeltas, hshadow, hcount⟩

/-- C3, witness: with `cpr = 42` and `count_in_cpr = 7` (sector 1), the code `010` of
sector 2 gives +1 and the code `001` of sector 0 gives -1; the full cycle from
`count_in_cpr = 0` advances `shadow_count` by 6. -/
theorem hall_symmetry_witness :
    (delta_enc atan2_zero { encoder_hall 42 with count_in_cpr := 7, hall_state := 0b010 }
        = Except.ok 1
      ∧ (update atan2_zero 0
          { encoder_hall 42 with count_in_cpr := 7, hall_state := 0b010 }).2.shadow_count
            = 0 + 1)
    ∧ (delta_enc atan2_zero { encoder_hall 42 with count_in_cpr := 7, hall_state := 0b001 }
        = Except.ok (-1)
      ∧ (update atan2_zero 0
          { encoder_hall 42 with count_in_cpr := 7, hall_state := 0b001 }).2.shadow_count
            = 0 - 1)
    ∧ ((hall_run atan2_zero 0 (encoder_hall 42) hall_cycle).1
          = [some 0, some 1, some 1, some 1, some 1, some 1, some 1]
      ∧ (hall_run atan2_zero 0 (encoder_hall 42) hall_cycle).2.shadow_count = 0 + 6
      ∧ (hall_run atan2_zero 0 (encoder_hall 42) hall_cycle).2.count_in_cpr = 6 % 42) :=
  have up := (hall_symmetry atan2_zero 0
      { encoder_hall 42 with count_in_cpr := 7, hall_state := 0b010 } 1
      rfl (by decide) (by decide) (by decide)).1 (by decide)
  have down := (hall_symmetry atan2_zero 0
      { encoder_hall 42 with count_in_cpr := 7, hall_state := 0b001 } 1
      rfl (by decide) (by decide) (by decide)).2.1 (by decide)
  ⟨⟨up.1, up.2.2 (by decide)⟩, ⟨down.1, down.2.2 (by decide)⟩,
   (hall_symmetry atan2_zero 0 (encoder_hall 42) 0
      rfl (by decide) (by decide) (by decide)).2.2 rfl (by decide) (by decide) (by decide)⟩

/-- C3, counterexample: in HALL mode with `cpr = 4`, the code sequence
`001,011,010,110,100,101,001` fed from `count_in_cpr = 0` does not give six deltas of +1:
the last two transitions give -1 and +3. Besides, at `shadow_count = 2147483647` the
transition from sector 0 to sector 1 has `delta_enc = +1` but `shadow_count` wraps to
`-2147483648`; and at `count_in_cpr = -2147483648` (congruent to 4 modulo 6) the code
`101` of sector 5 gives `delta_enc = +3`, the 32-bit subtraction having wrapped. -/
theorem hall_symmetry_counterexample :
    ((encoder_hall 4).config.mode = Mode.MODE_HALL
      ∧ (encoder_hall 4).count_in_cpr = 0
      ∧ (hall_run atan2_zero 0 (encoder_hall 4) hall_cycle).1
          = [some 0, some 1, some 1, some 1, some 1, some (-1), some 3])
    ∧ ((hall_tick atan2_zero 0
          { encoder_hall 42 with shadow_count := 2147483647 } (hall_code 1)).1 = some 1
      ∧ (hall_tick atan2_zero 0
          { encoder_hall 42 with shadow_count := 2147483647 } (hall_code 1)).2.shadow_count
          = -2147483648)
    ∧ ((-2147483648 : Int) % 6 = 4
      ∧ (hall_tick atan2_zero 0
          { encoder_hall 42 with count_in_cpr := -2147483648 } (hall_code 5)).1 = some 3) := by
  decide!

/-! ## C4, C5: when `update` fails -/

theorem decode_hall_eq_none_iff (n : Nat) : decode_hall n = none ↔ n ∉ valid_hall_codes := by
  unfold decode_hall valid_hall_codes
  split <;> simp_all

theorem has_error_or (err e : Nat) : has_error (err ||| e) e := by
  unfold has_error
  apply Nat.eq_of_testBit_eq
  intro i
  rw [Nat.testBit_and, Nat.testBit_or]
  cases err.testBit i <;> cases e.testBit i <;> rfl

theorem delta_enc_hall_illegal (fa : ℚ → ℚ → ℚ) (s : Encoder)
    (hmode : s.config.mode = Mode.MODE_HALL) (hdec : decode_hall s.hall_state = none) :
    delta_enc fa s = if !s.config.ignore_illegal_hall_state
      then Except.error ERROR_ILLEGAL_HALL_STATE else Except.ok 0 := by
  unfold delta_enc
  rw [hmode]
  simp only [hdec]

/-- C4: `update` returns false if and only if the mode is HALL, `hall_state` is not one of
the six valid codes and `ignore_illegal_hall_state` is off, or the mode is none of
INCREMENTAL, HALL, SINCOS; in every other case it returns true, and for an illegal Hall
code with the ignore flag set the delta of the tick is 0 and `shadow_count` (an
`int32_t`) is unchanged. -/
theorem update_false_iff (fa : ℚ → ℚ → ℚ) (dt : ℚ) (s : Encoder) :
    ((update fa dt s).1 = false ↔
      (s.config.mode = Mode.MODE_HALL ∧ s.hall_state ∉ valid_hall_codes
        ∧ s.config.ignore_illegal_hall_state = false)
      ∨ s.config.mode = Mode.MODE_UNSUPPORTED)
    ∧ (s.config.mode = Mode.MODE_HALL → s.hall_state ∉ valid_hall_codes →
        s.config.ignore_illegal_hall_state = true →
        (update fa dt s).1 = true ∧ delta_enc fa s = Except.ok 0
        ∧ (isInt32 s.shadow_count → (update fa dt s).2.shadow_count = s.shadow_count)) := by
  constructor
  · rw [← Bool.not_eq_true, update_true_iff, ← decode_hall_eq_none_iff]
    cases hmode : s.config.mode with
    | MODE_INCREMENTAL =>
      simp [delta_enc_incremental fa s hmode]
    | MODE_HALL =>
      cases hdec : decode_hall s.hall_state with
      | none =>
        rw [delta_enc_hall_illegal fa s hmode hdec]
        cases s.config.ignore_illegal_hall_state <;> simp
      | some h =>
        simp [delta_enc_hall fa s h hmode hdec]
    | MODE_SINCOS =>
      simp [delta_enc, hmode]
    | MODE_UNSUPPORTED =>
      simp [delta_enc, hmode]
  · intro hmode hill hign
    have hdec := (decode_hall_eq_none_iff s.hall_state).2 hill
    have hd : delta_enc fa s = Except.ok 0 := by
      rw [delta_enc_hall_illegal fa s hmode hdec, hign]
      rfl
    refine ⟨?_, hd, ?_⟩
    · rw [update_of_ok fa dt s hd]
    · intro h32
      rw [update_of_ok fa dt s hd]
      show (update_state dt 0 (check_gain dt s)).shadow_count = _
      rw [update_state_shadow_count, check_gain_shadow_count, add_zero]
      exact toInt32_of_isInt32 h32

/-- C4, witness: in HALL mode with the ignore flag set, the illegal code `111` gives a
successful tick with delta 0 and an unchanged `shadow_count`. -/
theorem update_false_iff_witness :
    (update atan2_zero 0 { encoder_hall 42 with
        config := { (encoder_hall 42).config with ignore_illegal_hall_state := true }
        hall_state := 0b111, shadow_count := 12 }).1 = true
    ∧ (update atan2_zero 0 { encoder_hall 42 with
        config := { (encoder_hall 42).config with ignore_illegal_hall_state := true }
        hall_state := 0b111, shadow_count := 12 }).2.shadow_count = 12 :=
  have h := (update_false_iff atan2_zero 0 { encoder_hall 42 with
        config := { (encoder_hall 42).config with ignore_illegal_hall_state := true }
        hall_state := 0b111, shadow_count := 12 }).2 rfl (by decide) rfl
  ⟨h.1, h.2.2 (by decide)⟩

/-- C5: in HALL mode with `ignore_illegal_hall_state` off, for every illegal `hall_state`
and every prior state, `update` returns false, the flag `ERROR_ILLEGAL_HALL_STATE` is set
in `error`, and the state is otherwise unchanged: putting the old `error` back gives the
prior state. -/
theorem rejected_hall_tick (fa : ℚ → ℚ → ℚ) (dt : ℚ) (s : Encoder)
    (hmode : s.config.mode = Mode.MODE_HALL)
    (hign : s.config.ignore_illegal_hall_state = false)
    (hill : s.hall_state ∉ valid_hall_codes) :
    (update fa dt s).1 = false
    ∧ has_error (update fa dt s).2.error ERROR_ILLEGAL_HALL_STATE
    ∧ { (update fa dt s).2 with error := s.error } = s := by
  have hdec := (decode_hall_eq_none_iff s.hall_state).2 hill
  have hd : delta_enc fa s = Except.error ERROR_ILLEGAL_HALL_STATE := by
    rw [delta_enc_hall_illegal fa s hmode hdec, hign]
    rfl
  rw [update_of_error fa dt s hd]
  refine ⟨rfl, has_error_or _ _, ?_⟩
  show { set_error ERROR_ILLEGAL_HALL_STATE (check_gain dt s) with error := s.error } = s
  rw [check_gain_eq]
  rfl

/-- C5, witness: the illegal code `000` in HALL mode with the ignore flag off. -/
theorem rejected_hall_tick_witness :
    (update atan2_zero 0 { encoder_hall 42 with hall_state := 0b000 }).1 = false
    ∧ has_error (update atan2_zero 0 { encoder_hall 42 with hall_state := 0b000 }).2.error
        ERROR_ILLEGAL_HALL_STATE
    ∧ { (update atan2_zero 0 { encoder_hall 42 with hall_state := 0b000 }).2 with
          error := ({ encoder_hall 42 with hall_state := 0b000 } : Encoder).error }
        = { encoder_hall 42 with hall_state := 0b000 } :=
  rejected_hall_tick atan2_zero 0 { encoder_hall 42 with hall_state := 0b000 }
    rfl rfl (by decide)

/-! ## C6: `set_circular_count` and the electrical alignment -/

/-- C6 (as amended): for every `n`, prior `count_in_cpr` and `offset`, and `cpr > 0`, after
`set_circular_count n true`: `count_in_cpr' = n mod cpr` and `0 ≤ offset' < cpr`; and, when
the 32-bit operations `n - count_in_cpr` and `offset + (n - count_in_cpr)` do not overflow,
`offset'` is congruent to `offset + (n - count_in_cpr)` modulo `cpr`, so that
`count_in_cpr' - offset'` is congruent to `count_in_cpr - offset`. With
`update_offset = false` the offset is left unchanged. -/
theorem set_circular_count_alignment (n : Int) (s : Encoder) (hcpr : 0 < s.config.cpr) :
    (set_circular_count n true s).count_in_cpr = n % s.config.cpr
    ∧ 0 ≤ (set_circular_count n true s).config.offset
    ∧ (set_circular_count n true s).config.offset < s.config.cpr
    ∧ (isInt32 (n - s.count_in_cpr) → isInt32 (s.config.offset + (n - s.count_in_cpr)) →
        (set_circular_count n true s).config.offset % s.config.cpr
          = (s.config.offset + (n - s.count_in_cpr)) % s.config.cpr
        ∧ ((set_circular_count n true s).count_in_cpr
            - (set_circular_count n true s).config.offset) % s.config.cpr
          = (s.count_in_cpr - s.config.offset) % s.config.cpr)
    ∧ (set_circular_count n false s).config.offset = s.config.offset := by
  refine ⟨rfl, mod_nonneg _ hcpr, mod_lt _ hcpr, ?_, rfl⟩
  intro h1 h2
  have hoff : (set_circular_count n true s).config.offset
      = (s.config.offset + (n - s.count_in_cpr)) % s.config.cpr := by
    show mod (toInt32 (s.config.offset + toInt32 (n - s.count_in_cpr))) s.config.cpr = _
    rw [toInt32_of_isInt32 h1, toInt32_of_isInt32 h2]
    rfl
  have hcnt : (set_circular_count n true s).count_in_cpr = n % s.config.cpr := rfl
  constructor
  · rw [hoff, Int.emod_emod_of_dvd _ (dvd_refl _)]
  · rw [hoff, hcnt, Int.sub_emod, Int.emod_emod_of_dvd _ (dvd_refl _),
      Int.emod_emod_of_dvd _ (dvd_refl _), ← Int.sub_emod]
    congr 1
    ring

/-- C6, witness: `cpr = 2000`, `count_in_cpr = 1`, `offset = 0` and `n = 4321`. -/
theorem set_circular_count_alignment_witness :
    (set_circular_count 4321 true encoder_cpr2000).count_in_cpr = 4321 % 2000
    ∧ (set_circular_count 4321 true encoder_cpr2000).config.offset % 2000
        = (0 + (4321 - 1)) % 2000
    ∧ ((set_circular_count 4321 true encoder_cpr2000).count_in_cpr
        - (set_circular_count 4321 true encoder_cpr2000).config.offset) % 2000
        = (1 - 0) % 2000 :=
  have h := set_circular_count_alignment 4321 encoder_cpr2000 (by decide)
  ⟨h.1, (h.2.2.2.1 (by decide) (by decide)).1, (h.2.2.2.1 (by decide) (by decide)).2⟩

/-- C6, counterexample: with `cpr = 2000`, `count_in_cpr = 1`, `offset = 0` and
`n = -2147483648` the difference `n - count_in_cpr` leaves the 32-bit range; the new offset
is 1647, not congruent to `offset + (n - count_in_cpr)` (351 modulo 2000), and
`count_in_cpr' - offset'` is not congruent to `count_in_cpr - offset`. -/
theorem set_circular_count_alignment_counterexample :
    (0 : Int) < encoder_cpr2000.config.cpr
    ∧ (set_circular_count (-2147483648) true encoder_cpr2000).config.offset = 1647
    ∧ (set_circular_count (-2147483648) true encoder_cpr2000).config.offset % 2000
        ≠ (encoder_cpr2000.config.offset
            + (-2147483648 - encoder_cpr2000.count_in_cpr)) % 2000
    ∧ ((set_circular_count (-2147483648) true encoder_cpr2000).count_in_cpr
        - (set_circular_count (-2147483648) true encoder_cpr2000).config.offset) % 2000
        ≠ (encoder_cpr2000.count_in_cpr - encoder_cpr2000.config.offset) % 2000 := by
  decide

/-! ## C7: the index event -/

/-- C7: for every state with `use_index` set, after the index callback `count_in_cpr = 0`
and `pos_cpr = 0` with `config.offset` unchanged; `shadow_count` is 0 if
`zero_count_on_find_idx` is set and unchanged otherwise; `is_ready` equals
`pre_calibrated`; `index_found` is true; the index interrupt is unsubscribed, so that a
later edge changes nothing. -/
theorem index_event (s : Encoder) (hu : s.config.use_index = true) :
    (enc_index_cb s).count_in_cpr = 0
    ∧ (enc_index_cb s).pos_cpr = 0
    ∧ (enc_index_cb s).config.offset = s.config.offset
    ∧ (enc_index_cb s).shadow_count
        = (if s.config.zero_count_on_find_idx then 0 else s.shadow_count)
    ∧ (enc_index_cb s).is_ready = s.config.pre_calibrated
    ∧ (enc_index_cb s).index_found = true
    ∧ (enc_index_cb s).index_subscribed = false
    ∧ index_edge (enc_index_cb s) = enc_index_cb s := by
  have h0 : mod 0 s.config.cpr = 0 := Int.zero_emod _
  cases hz : s.config.zero_count_on_find_idx <;> cases hp : s.config.pre_calibrated <;>
    simp [index_edge, enc_index_cb, set_circular_count, set_linear_count, hu, hz, hp, h0]

/-- C7, witness: pre-calibrated, `zero_count_on_find_idx` set: after the callback
`count_in_cpr = 0`, `shadow_count = 0`, `is_ready = true`, `index_found = true`, and the
interrupt is unsubscribed. -/
theorem index_event_witness :
    encoder_indexed.config.use_index = true
    ∧ encoder_indexed.config.pre_calibrated = true
    ∧ encoder_indexed.config.zero_count_on_find_idx = true
    ∧ (enc_index_cb encoder_indexed).count_in_cpr = 0
    ∧ (enc_index_cb encoder_indexed).shadow_count = 0
    ∧ (enc_index_cb encoder_indexed).is_ready = true
    ∧ (enc_index_cb encoder_indexed).index_found = true
    ∧ (enc_index_cb encoder_indexed).index_subscribed = false
    ∧ index_edge (enc_index_cb encoder_indexed) = enc_index_cb encoder_indexed :=
  have h := index_event encoder_indexed rfl
  ⟨rfl, rfl, rfl, h.1, h.2.2.2.1, h.2.2.2.2.1, h.2.2.2.2.2.1, h.2.2.2.2.2.2.1,
    h.2.2.2.2.2.2.2⟩

/-! ## C8, C9, C10: offset calibration -/

theorem run_control_loop_calm {σ : Type} (handler : Tick → Encoder → σ → Bool × σ) :
    ∀ (ticks : List Tick) (acc : σ) (s : Encoder) (r : σ × Encoder),
      run_control_loop handler ticks acc s = some r → calm r.2 = calm s := by
  intro ticks
  induction ticks with
  | nil =>
    intro acc s r h
    simp [run_control_loop] at h
  | cons t ts ih =>
    intro acc s r h
    unfold run_control_loop at h
    simp only at h
    split at h
    · simp only [Option.some.injEq] at h
      rw [← h]
      rfl
    · have := ih _ _ _ h
      rw [this]
      rfl

theorem M_PI_ne_zero : M_PI ≠ 0 := by
  unfold M_PI
  norm_num

theorem expected_encoder_delta_congr (s s3 : Encoder) (h1 : s3.config = s.config)
    (h2 : s3.axis.pole_pairs = s.axis.pole_pairs) :
    expected_encoder_delta s3 = expected_encoder_delta s := by
  unfold expected_encoder_delta elec_rad_per_enc
  rw [h1, h2]

/-- C10: for every state with `use_index` set and `index_found` clear,
`run_offset_calibration` returns false, latches `ERROR_INDEX_NOT_FOUND_YET` and changes
nothing else: the state returned is the prior state but for that flag, so `shadow_count`
is not synced, offset, `offset_float`, `is_ready` and the motor direction are unchanged
and the motor is not armed. -/
theorem offset_calibration_requires_index (w : World) (s : Encoder)
    (hu : s.config.use_index = true) (hf : s.index_found = false) :
    ∃ s', run_offset_calibration w s = some (false, s')
      ∧ has_error s'.error ERROR_INDEX_NOT_FOUND_YET
      ∧ { s' with error := s.error } = s
      ∧ s'.shadow_count = s.shadow_count
      ∧ s'.config = s.config
      ∧ s'.is_ready = s.is_ready
      ∧ s'.axis = s.axis := by
  refine ⟨set_error ERROR_INDEX_NOT_FOUND_YET s, ?_, has_error_or _ _, rfl, rfl, rfl, rfl, rfl⟩
  unfold run_offset_calibration
  simp [hu, hf]

/-- C10, witness: the state `encoder_indexed`, whose index has not been found, in a world
where the motor would arm. -/
theorem offset_calibration_requires_index_witness :
    ∃ s', run_offset_calibration world_double encoder_indexed = some (false, s')
      ∧ has_error s'.error ERROR_INDEX_NOT_FOUND_YET
      ∧ { s' with error := encoder_indexed.error } = encoder_indexed
      ∧ s'.shadow_count = encoder_indexed.shadow_count
      ∧ s'.config = encoder_indexed.config
      ∧ s'.is_ready = encoder_indexed.is_ready
      ∧ s'.axis = encoder_indexed.axis :=
  offset_calibration_requires_index world_double encoder_indexed rfl rfl

/-- C9 (as amended): in `run_offset_calibration`, for `cpr > 0` and `pole_pairs > 0` (no
division by zero), with `expected` the single-precision value that the code computes for
`scan_distance / (2π·pole_pairs/cpr)` and `actual` the magnitude of the change of
`shadow_count` over the forward scan, converted to `float`:
whenever the routine reaches the direction test (index requirement met, motor type
supported, motor armed, lock phase and forward scan ended without axis error), the
direction test passes and the single-precision quotient `|actual - expected| / expected`
is `> calib_range`, the routine returns false, latches `ERROR_CPR_OUT_OF_RANGE`, and leaves
`config.offset`, `config.offset_float` and `is_ready` unchanged. -/
theorem cpr_check_fails (w : World) (s s1 s2 : Encoder) (v : ℚ) (acc : Int × Int)
    (_hcpr_pos : 0 < s.config.cpr) (_hpole_pos : 0 < s.axis.pole_pairs)
    (hidx : (s.config.use_index && !s.index_found) = false)
    (hvolt : voltage_magnitude s.axis = some v)
    (harm : w.arm_foc = true)
    (hlock : run_control_loop (lock_handler w.lock_start_ms) w.lock ()
      { s with shadow_count := s.count_in_cpr, axis := { s.axis with armed := true } }
        = some ((), s1))
    (hlock_ok : s1.axis.error = 0)
    (hfwd : run_control_loop (scan_handler w.fwd_start_ms) w.fwd (0, 0) s1 = some (acc, s2))
    (hfwd_ok : s2.axis.error = 0)
    (hdir : s2.shadow_count > toInt32 (s1.shadow_count + 8)
      ∨ s2.shadow_count < toInt32 (s1.shadow_count - 8))
    (hcpr : fl32 (|fl32 (|fl32 ((toInt32 (s2.shadow_count - s1.shadow_count) : Int) : ℚ)|
        - expected_encoder_delta s)| / expected_encoder_delta s) > s.config.calib_range) :
    ∃ s', run_offset_calibration w s = some (false, s')
      ∧ has_error s'.error ERROR_CPR_OUT_OF_RANGE
      ∧ s'.config.offset = s.config.offset
      ∧ s'.config.offset_float = s.config.offset_float
      ∧ s'.is_ready = s.is_ready := by
  have c1 := run_control_loop_calm _ _ _ _ _ hlock
  have c2 := run_control_loop_calm _ _ _ _ _ hfwd
  have c := c2.trans c1
  have hconfig : s2.config = s.config := by
    have := congrArg Encoder.config c
    exact this
  have hready : s2.is_ready = s.is_ready := by
    have := congrArg Encoder.is_ready c
    exact this
  have hpole : s2.axis.pole_pairs = s.axis.pole_pairs := by
    have := congrArg (fun x => x.axis.pole_pairs) c
    exact this
  have hrange : ∀ s3 : Encoder, s3.config = s.config →
      s3.axis.pole_pairs = s.axis.pole_pairs → s3.shadow_count = s2.shadow_count →
      cpr_out_of_range s3 s1.shadow_count = true := by
    intro s3 h1 h2 h3
    unfold cpr_out_of_range
    rw [expected_encoder_delta_congr s s3 h1 h2]
    unfold actual_encoder_delta_abs
    simp only [h1, h3, decide_eq_true_eq]
    exact hcpr
  have hvolt1 : voltage_magnitude
      ({ s with shadow_count := s.count_in_cpr } : Encoder).axis = some v := hvolt
  unfold run_offset_calibration
  simp only [hidx, Bool.false_eq_true, if_false, hvolt1, harm, Bool.not_true, hlock, hlock_ok,
    ne_eq, not_true_eq_false, hfwd, hfwd_ok]
  by_cases hup : s2.shadow_count > toInt32 (s1.shadow_count + 8)
  · simp only [hup, if_true]
    split
    · exact ⟨_, rfl, has_error_or _ _, congrArg Config.offset hconfig,
        congrArg Config.offset_float hconfig, hready⟩
    · rename_i h
      exact (h (hrange _ hconfig hpole rfl)).elim
  · have hdown : s2.shadow_count < toInt32 (s1.shadow_count - 8) := by
      rcases hdir with h | h
      · exact (hup h).elim
      · exact h
    simp only [hup, hdown, if_true, if_false]
    split
    · exact ⟨_, rfl, has_error_or _ _, congrArg Config.offset hconfig,
        congrArg Config.offset_float hconfig, hready⟩
    · rename_i h
      exact (h (hrange _ hconfig hpole rfl)).elim

/-- C9, witness: `pole_pairs = 7`, `cpr = 2000`, `calib_range = 0.05`; the encoder moves
4572 counts in the forward scan, twice the expected `8·2000/7`: the calibration fails with
`ERROR_CPR_OUT_OF_RANGE` and leaves offset, `offset_float` and `is_ready` as they were. -/
theorem cpr_check_fails_witness :
    ∃ s', run_offset_calibration world_double (encoder_cal 0) = some (false, s')
      ∧ has_error s'.error ERROR_CPR_OUT_OF_RANGE
      ∧ s'.config.offset = (encoder_cal 0).config.offset
      ∧ s'.config.offset_float = (encoder_cal 0).config.offset_float
      ∧ s'.is_ready = (encoder_cal 0).is_ready :=
  cpr_check_fails world_double (encoder_cal 0) cal_locked cal_scanned (fl32 (10 * 0.1))
    (6858, 2) (by decide) (by decide) rfl rfl rfl (by decide!) rfl (by decide!) rfl
    (Or.inl (by decide)) (by decide!)

/-- C9, counterexample: `pole_pairs = 8`, `cpr = 2000` and `calib_range` the `float`
`0.02f = 5368709/268435456`; the encoder moves 2040 counts in the forward scan. The
direction test passes and in exact arithmetic `|2040 - 8·2000/8| / (8·2000/8) = 1/50` is
`> calib_range`, but the code computes `expected = 2000` and the quotient `0.02f`, which
is not: the calibration goes on and returns true with no flag raised. With seven pole
pairs the computed `expected` is `9362285/4096`, not `8·2000/7`. -/
theorem cpr_check_fails_counterexample :
    (run_offset_calibration world_edge encoder_edge).map (fun r => (r.1, r.2.error))
        = some (true, 0)
    ∧ (run_control_loop (lock_handler world_edge.lock_start_ms) world_edge.lock ()
        { encoder_edge with
          shadow_count := encoder_edge.count_in_cpr
          axis := { encoder_edge.axis with armed := true } }).map
          (fun r => (r.2.shadow_count, r.2.axis.error)) = some (0, 0)
    ∧ (run_control_loop (scan_handler world_edge.fwd_start_ms) world_edge.fwd (0, 0)
        { encoder_edge with axis := { encoder_edge.axis with armed := true } }).map
          (fun r => (r.2.shadow_count, r.2.axis.error)) = some (2040, 0)
    ∧ (2040 : Int) > toInt32 (0 + 8)
    ∧ |(|((toInt32 (2040 - 0) : Int) : ℚ)|
          - 8 * (encoder_edge.config.cpr : ℚ) / (encoder_edge.axis.pole_pairs : ℚ))|
        / (8 * (encoder_edge.config.cpr : ℚ) / (encoder_edge.axis.pole_pairs : ℚ))
        > encoder_edge.config.calib_range
    ∧ expected_encoder_delta encoder_edge = 2000
    ∧ fl32 (|fl32 (|fl32 ((toInt32 (2040 - 0) : Int) : ℚ)| - expected_encoder_delta encoder_edge)|
        / expected_encoder_delta encoder_edge) = encoder_edge.config.calib_range
    ∧ expected_encoder_delta (encoder_cal 0) = 9362285 / 4096
    ∧ (9362285 / 4096 : ℚ) ≠ 8 * 2000 / 7 := by
  decide!

theorem store_offset_of_nonneg (sum n : Int) (s : Encoder)
    (h0 : 0 ≤ sum) (hs : sum < 9223372036854775808) (hn : 0 < n) (hn2 : n < 1073741824)
    (hq : sum / (n * 2) ≤ 2147483647) :
    (store_offset sum n s).config.offset = sum / (n * 2)
    ∧ (store_offset sum n s).config.offset_float
      = fl32 (fl32 (fl32 ((sum % (n * 2) : Int) : ℚ) / fl32 ((n * 2 : Int) : ℚ)) + 0.5) := by
  have hm : 0 < n * 2 := by omega
  have hm2 : n * 2 < 2147483648 := by omega
  have e1 : toUInt64 sum = sum := by unfold toUInt64; omega
  have e2 : toUInt64 (n * 2) = n * 2 := by unfold toUInt64; omega
  have hq0 : 0 ≤ sum / (n * 2) := Int.ediv_nonneg h0 (le_of_lt hm)
  have e3 : toInt32 (sum / (n * 2)) = sum / (n * 2) :=
    toInt32_of_isInt32 ⟨by omega, hq⟩
  have hr : sum - sum / (n * 2) * (n * 2) = sum % (n * 2) := by
    rw [Int.emod_def, mul_comm]
  have hr0 : 0 ≤ sum % (n * 2) := Int.emod_nonneg _ (ne_of_gt hm)
  have hr1 : sum % (n * 2) < n * 2 := Int.emod_lt_of_pos _ hm
  have e4 : toInt64 (n * 2) = n * 2 := by unfold toInt64; omega
  have hle : sum / (n * 2) * (n * 2) ≤ sum := by omega
  have hge : 0 ≤ sum / (n * 2) * (n * 2) := Int.mul_nonneg hq0 (le_of_lt hm)
  have e5 : toInt64 (sum / (n * 2) * (n * 2)) = sum / (n * 2) * (n * 2) := by
    generalize sum / (n * 2) * (n * 2) = x at hle hge
    unfold toInt64
    omega
  have e6 : toInt64 (sum % (n * 2)) = sum % (n * 2) := by unfold toInt64; omega
  have e7 : toInt32 (sum % (n * 2)) = sum % (n * 2) :=
    toInt32_of_isInt32 ⟨by omega, by omega⟩
  unfold store_offset
  simp only [e1, e2, e3, e4, e5, hr, e6, e7]
  exact ⟨trivial, trivial⟩

/-- C8, the failing run: an encoder that counts down when the motor turns forward, with
`cpr = 2000` and seven pole pairs. The five samples of `shadow_count` add up to
`encvaluesum = -5690` with `num_steps = 5`; the calibration succeeds and stores
`offset = -1717987488` and `offset_float = 1.1f`, where the signed quotient
`-5690 / (2·5)` is `-569`. Likewise 64000 samples that add up to `-72000000` give
`offset = 1855425309`, where the signed quotient is `-562`. -/
theorem offset_calibration_unsigned_division :
    (run_offset_calibration world_reversed (encoder_cal 5)).map (fun r => (r.1, r.2.config))
        = some (true, (store_offset (-5690) 5 (encoder_cal 5)).config)
    ∧ (store_offset (-5690) 5 (encoder_cal 5)).config.offset = -1717987488
    ∧ (store_offset (-5690) 5 (encoder_cal 5)).config.offset_float = fl32 (11 / 10)
    ∧ ([-1138, -2281, -1519, -757, 5] : List Int).sum = -5690
    ∧ Int.tdiv (-5690) (2 * 5) = -569
    ∧ (store_offset (-72000000) 64000 (encoder_cal 5)).config.offset = 1855425309
    ∧ Int.tdiv (-72000000) (2 * 64000) = -562 := by
  decide!

/-! ## Facts shared by the later results -/

theorem has_error_or_disjoint (err a b : Nat) (h : a &&& b = 0) :
    has_error (err ||| a) b ↔ has_error err b := by
  unfold has_error
  rw [Nat.and_distrib_right, h, Nat.or_zero]

theorem latched_refl (e : Nat) : latched e e := fun _ h => h

theorem latched_or (e a : Nat) : latched e (e ||| a) := by
  intro i h
  rw [Nat.testBit_or, h]
  rfl

theorem latched_trans {a b c : Nat} (h1 : latched a b) (h2 : latched b c) : latched a c :=
  fun i h => h2 i (h1 i h)

theorem latched_of_eq {a b : Nat} (h : b = a) : latched a b := by
  rw [h]
  exact latched_refl a

theorem calm_error {s t : Encoder} (h : calm s = calm t) : s.error = t.error := by
  have := congrArg Encoder.error h
  exact this

theorem calm_config {s t : Encoder} (h : calm s = calm t) : s.config = t.config := by
  have := congrArg Encoder.config h
  exact this

theorem run_offset_calibration_reach (w : World) (s s1 s2 : Encoder) (v : ℚ)
    (acc : Int × Int)
    (hidx : (s.config.use_index && !s.index_found) = false)
    (hvolt : voltage_magnitude s.axis = some v)
    (harm : w.arm_foc = true)
    (hlock : run_control_loop (lock_handler w.lock_start_ms) w.lock ()
      { s with shadow_count := s.count_in_cpr, axis := { s.axis with armed := true } }
        = some ((), s1))
    (hlock_ok : s1.axis.error = 0)
    (hfwd : run_control_loop (scan_handler w.fwd_start_ms) w.fwd (0, 0) s1 = some (acc, s2))
    (hfwd_ok : s2.axis.error = 0) :
    run_offset_calibration w s
      = match scan_direction s1.shadow_count s2 with
        | none => some (false, set_error ERROR_NO_RESPONSE s2)
        | some d => calibration_finish w s1.shadow_count acc d s2 := by
  have hvolt1 : voltage_magnitude
      ({ s with shadow_count := s.count_in_cpr } : Encoder).axis = some v := hvolt
  have e1 : ¬ s1.axis.error ≠ 0 := not_not.mpr hlock_ok
  have e2 : ¬ s2.axis.error ≠ 0 := not_not.mpr hfwd_ok
  unfold run_offset_calibration
  simp only [hidx, Bool.false_eq_true, if_false, hvolt1, harm, Bool.not_true, hlock]
  rw [if_neg e1]
  simp only [hfwd]
  rw [if_neg e2]
  rfl

theorem calibration_finish_error (w : World) (init_enc_val : Int) (acc : Int × Int)
    (d : Int) (s : Encoder) (r : Bool × Encoder)
    (h : calibration_finish w init_enc_val acc d s = some r) :
    r.2.error = s.error ∨ r.2.error = s.error ||| ERROR_CPR_OUT_OF_RANGE := by
  unfold calibration_finish at h
  dsimp only at h
  split at h
  · simp only [Option.some.injEq] at h
    subst h
    right; rfl
  · split at h
    · simp at h
    · rename_i acc3 s3 hbwd
      have c3 := calm_error (run_control_loop_calm _ _ _ _ _ hbwd)
      split at h
      · simp only [Option.some.injEq] at h
        subst h
        left; exact c3
      · simp only [Option.some.injEq] at h
        subst h
        left; exact c3

theorem scan_direction_none (init_enc_val : Int) (s : Encoder)
    (h8 : isInt32 (init_enc_val + 8)) (hm8 : isInt32 (init_enc_val - 8))
    (h : init_enc_val - 8 ≤ s.shadow_count ∧ s.shadow_count ≤ init_enc_val + 8) :
    scan_direction init_enc_val s = none := by
  unfold scan_direction
  rw [toInt32_of_isInt32 h8, toInt32_of_isInt32 hm8]
  rw [if_neg (by omega), if_neg (by omega)]

theorem scan_direction_some (init_enc_val : Int) (s : Encoder)
    (h8 : isInt32 (init_enc_val + 8)) (hm8 : isInt32 (init_enc_val - 8))
    (h : s.shadow_count < init_enc_val - 8 ∨ init_enc_val + 8 < s.shadow_count) :
    ∃ d, scan_direction init_enc_val s = some d := by
  unfold scan_direction
  rw [toInt32_of_isInt32 h8, toInt32_of_isInt32 hm8]
  by_cases hup : s.shadow_count > init_enc_val + 8
  · exact ⟨1, by rw [if_pos hup]⟩
  · exact ⟨-1, by rw [if_neg hup, if_pos (by omega)]⟩

theorem enc_index_cb_error (s : Encoder) : (enc_index_cb s).error = s.error := by
  cases hu : s.config.use_index <;> cases hz : s.config.zero_count_on_find_idx <;>
    cases hp : s.config.pre_calibrated <;>
    simp [enc_index_cb, set_circular_count, set_linear_count, hu, hz, hp]

theorem run_lockin_spin_error (sp : Spin) (s : Encoder) :
    (run_lockin_spin sp s).2.error = s.error ||| sp.error := by
  unfold run_lockin_spin
  dsimp only
  split
  · show (enc_index_cb s).error ||| sp.error = _
    rw [enc_index_cb_error s]
  · rfl

theorem run_direction_find_error (sp : Spin) (s : Encoder) :
    (run_direction_find sp s).2.error = s.error ||| sp.error := by
  have h := run_lockin_spin_error sp
    { s with axis := { s.axis with lockin_finish_on_distance := true, direction := 1 } }
  unfold run_direction_find
  dsimp only
  split
  · split
    · exact h
    · split
      · exact h
      · exact h
  · exact h

/-! ## Facts about the direction tests and the lock-in spin -/

theorem enc_index_cb_axis (s : Encoder) : (enc_index_cb s).axis = s.axis := by
  cases hu : s.config.use_index <;> cases hz : s.config.zero_count_on_find_idx <;>
    cases hp : s.config.pre_calibrated <;>
    simp [enc_index_cb, set_circular_count, set_linear_count, hu, hz, hp]

theorem run_lockin_spin_shadow_count (sp : Spin) (s : Encoder) :
    (run_lockin_spin sp s).2.shadow_count = toInt32 sp.shadow_count := rfl

theorem run_lockin_spin_axis (sp : Spin) (s : Encoder) :
    (run_lockin_spin sp s).2.axis = { s.axis with error := s.axis.error ||| sp.axis_error } := by
  unfold run_lockin_spin
  dsimp only
  split
  · rw [enc_index_cb_axis]
  · rfl

theorem run_direction_find_status (sp : Spin) (s : Encoder) :
    (run_direction_find sp s).1 = sp.status := rfl

theorem run_direction_find_shadow_count (sp : Spin) (s : Encoder) :
    (run_direction_find sp s).2.shadow_count = toInt32 sp.shadow_count := by
  unfold run_direction_find
  dsimp only
  split
  · split
    · rfl
    · split <;> rfl
  · rfl

theorem run_direction_find_axis (sp : Spin) (s : Encoder) :
    (run_direction_find sp s).2.axis =
      { s.axis with
        error := s.axis.error ||| sp.axis_error
        direction :=
          if sp.status then
            if toInt32 sp.shadow_count > toInt32 (s.shadow_count + 8) then 1
            else if toInt32 sp.shadow_count < toInt32 (s.shadow_count - 8) then -1
            else 0
          else 1 } := by
  have h := run_lockin_spin_axis sp
    { s with axis := { s.axis with lockin_finish_on_distance := true, direction := 1 } }
  have hs := run_lockin_spin_shadow_count sp
    { s with axis := { s.axis with lockin_finish_on_distance := true, direction := 1 } }
  have hst : (run_lockin_spin sp
    { s with axis := { s.axis with lockin_finish_on_distance := true, direction := 1 } }).1
      = sp.status := rfl
  unfold run_direction_find
  dsimp only
  rw [hst, hs, h]
  cases sp.status
  · rfl
  · simp only [if_true]
    split
    · rfl
    · split <;> rfl

/-! ## C12: the decision of `run_direction_find` -/

/-- C12 (as amended): with the lock-in spin an external step that returns a status and
leaves a new `shadow_count`, `run_direction_find` returns the status of the spin and
`lockin.finish_on_distance` has its original value on return; when the spin succeeds (and
`init_enc_val ± 8` is within the 32-bit range) the motor direction is set to +1 if
`shadow_count` rose by more than 8 counts, to -1 if it fell by more than 8 counts, and to
0 otherwise. -/
theorem direction_find_decision (sp : Spin) (s : Encoder) :
    (run_direction_find sp s).1 = sp.status
    ∧ (run_direction_find sp s).2.axis.lockin_finish_on_distance
        = s.axis.lockin_finish_on_distance
    ∧ (sp.status = true → isInt32 (s.shadow_count + 8) → isInt32 (s.shadow_count - 8) →
        (run_direction_find sp s).2.axis.direction =
          if (run_direction_find sp s).2.shadow_count > s.shadow_count + 8 then 1
          else if (run_direction_find sp s).2.shadow_count < s.shadow_count - 8 then -1
          else 0) := by
  refine ⟨rfl, ?_, ?_⟩
  · rw [run_direction_find_axis]
  · intro hst h8 hm8
    rw [run_direction_find_axis, run_direction_find_shadow_count]
    simp only [hst, if_true, toInt32_of_isInt32 h8, toInt32_of_isInt32 hm8]

/-- C12, witness: from `shadow_count = 0`, a successful spin that leaves `shadow_count` at
9 sets the direction to +1, one that leaves it at -9 sets it to -1. -/
theorem direction_find_decision_witness :
    (run_direction_find (spin_to 9) (encoder_cal 0)).2.axis.direction = 1
    ∧ (run_direction_find (spin_to (-9)) (encoder_cal 0)).2.axis.direction = -1 :=
  ⟨((direction_find_decision (spin_to 9) (encoder_cal 0)).2.2 rfl
      (by decide) (by decide)).trans (by decide),
   ((direction_find_decision (spin_to (-9)) (encoder_cal 0)).2.2 rfl
      (by decide) (by decide)).trans (by decide)⟩

/-- C12, counterexample: from `shadow_count = 0`, a successful spin after which
`shadow_count` has risen by 8 counts sets the direction to 0, not +1; one after which it
has fallen by 8 counts sets it to 0, not -1. -/
theorem direction_find_decision_counterexample :
    ((run_direction_find (spin_to 8) (encoder_cal 0)).1 = true
      ∧ (run_direction_find (spin_to 8) (encoder_cal 0)).2.shadow_count
          - (encoder_cal 0).shadow_count = 8
      ∧ (run_direction_find (spin_to 8) (encoder_cal 0)).2.axis.direction = 0)
    ∧ ((run_direction_find (spin_to (-8)) (encoder_cal 0)).1 = true
      ∧ (run_direction_find (spin_to (-8)) (encoder_cal 0)).2.shadow_count
          - (encoder_cal 0).shadow_count = -8
      ∧ (run_direction_find (spin_to (-8)) (encoder_cal 0)).2.axis.direction = 0) := by
  decide!

/-! ## C13: error bits are latched -/

theorem run_offset_calibration_error (w : World) (s : Encoder) (r : Bool × Encoder)
    (h : run_offset_calibration w s = some r) :
    r.2.error = s.error ∨ r.2.error = s.error ||| ERROR_INDEX_NOT_FOUND_YET
      ∨ r.2.error = s.error ||| ERROR_NO_RESPONSE
      ∨ r.2.error = s.error ||| ERROR_CPR_OUT_OF_RANGE := by
  unfold run_offset_calibration at h
  split at h
  · simp only [Option.some.injEq] at h
    subst h
    right; left; rfl
  · simp only at h
    split at h
    · simp only [Option.some.injEq] at h
      subst h
      left; rfl
    · split at h
      · simp only [Option.some.injEq] at h
        subst h
        left; rfl
      · split at h
        · simp at h
        · rename_i u1 s1 hlock
          have c1 := calm_error (run_control_loop_calm _ _ _ _ _ hlock)
          split at h
          · simp only [Option.some.injEq] at h
            subst h
            left; exact c1
          · split at h
            · simp at h
            · rename_i acc s2 hfwd
              have c2 := calm_error (run_control_loop_calm _ _ _ _ _ hfwd)
              have c12 : s2.error = s.error := by rw [c2, c1]
              split at h
              · simp only [Option.some.injEq] at h
                subst h
                left; exact c12
              · split at h
                · simp only [Option.some.injEq] at h
                  subst h
                  right; right; left
                  show s2.error ||| ERROR_NO_RESPONSE = _
                  rw [c12]
                · rename_i d hd
                  have hfin : calibration_finish w s1.shadow_count acc d s2 = some r := h
                  rcases calibration_finish_error _ _ _ _ _ _ hfin with e | e
                  · left; rw [e, c12]
                  · right; right; right; rw [e, c12]

theorem init_error (hw : CounterHw) (s : Encoder) : (init hw s).2.error = s.error := by
  unfold init set_idx_subscribe update_pll_gains
  dsimp only
  split <;> split <;> (try split) <;> (try split) <;> (try split) <;> (try split)
    <;> (try split) <;> rfl

theorem sample_now_error (vs vc : ℚ) (s : Encoder) :
    latched s.error (sample_now vs vc s).error := by
  unfold sample_now
  split
  · exact latched_refl _
  · exact latched_refl _
  · exact latched_refl _
  · exact latched_or _ _

theorem check_gain_error (dt : ℚ) (s : Encoder) :
    (check_gain dt s).error = if dt * s.pll_kp < 1 then s.error
      else s.error ||| ERROR_UNSTABLE_GAIN := by
  unfold check_gain set_error
  by_cases h : dt * s.pll_kp < 1
  · simp [h]
  · simp [h]

theorem check_gain_latched (dt : ℚ) (s : Encoder) :
    latched s.error (check_gain dt s).error := by
  rw [check_gain_error]
  split
  · exact latched_refl _
  · exact latched_or _ _

theorem update_state_error (dt : ℚ) (d : Int) (s : Encoder) :
    (update_state dt d s).error = s.error := rfl

theorem update_latched (fa : ℚ → ℚ → ℚ) (dt : ℚ) (s : Encoder) :
    latched s.error (update fa dt s).2.error := by
  cases h : delta_enc fa s with
  | error e =>
    rw [update_of_error fa dt s h]
    exact latched_trans (check_gain_latched dt s) (latched_or _ _)
  | ok d =>
    rw [update_of_ok fa dt s h]
    exact check_gain_latched dt s

theorem check_pre_calibrated_error (s : Encoder) :
    (check_pre_calibrated s).error = s.error := by
  unfold check_pre_calibrated
  dsimp only
  split <;> split <;> rfl

theorem run_index_search_error (sp : Spin) (s : Encoder) :
    (run_index_search sp s).2.error = s.error ||| sp.error := by
  unfold run_index_search
  dsimp only
  split
  · exact run_lockin_spin_error sp _
  · exact run_lockin_spin_error sp _

/-- C13: for every operation of the estimator (`init`, `sample_now`, `update`,
`enc_index_cb`, `set_linear_count`, `set_circular_count`, `check_pre_calibrated`,
`run_index_search`, `run_direction_find`, `run_offset_calibration`) and every prior state,
every bit set in `error` before the operation is still set after it. -/
theorem error_bits_latched (fa : ℚ → ℚ → ℚ) (dt vs vc : ℚ) (s : Encoder) (n : Int) (b : Bool)
    (hw : CounterHw) (sp : Spin) (w : World) :
    latched s.error (init hw s).2.error
    ∧ latched s.error (sample_now vs vc s).error
    ∧ latched s.error (update fa dt s).2.error
    ∧ latched s.error (enc_index_cb s).error
    ∧ latched s.error (set_linear_count n s).error
    ∧ latched s.error (set_circular_count n b s).error
    ∧ latched s.error (check_pre_calibrated s).error
    ∧ latched s.error (run_index_search sp s).2.error
    ∧ latched s.error (run_direction_find sp s).2.error
    ∧ (∀ r, run_offset_calibration w s = some r → latched s.error r.2.error) := by
  refine ⟨latched_of_eq (init_error hw s), sample_now_error vs vc s, update_latched fa dt s,
    latched_of_eq (enc_index_cb_error s), latched_refl _, latched_refl _,
    latched_of_eq (check_pre_calibrated_error s),
    by rw [run_index_search_error]; exact latched_or _ _,
    by rw [run_direction_find_error]; exact latched_or _ _, ?_⟩
  intro r hr
  rcases run_offset_calibration_error w s r hr with e | e | e | e
  · exact latched_of_eq e
  · rw [e]; exact latched_or _ _
  · rw [e]; exact latched_or _ _
  · rw [e]; exact latched_or _ _

/-- C13, witness: with `ERROR_UNSTABLE_GAIN` latched beforehand, a tick keeps it, and a
calibration that ends in `ERROR_NO_RESPONSE` keeps it next to the new flag. -/
theorem error_bits_latched_witness :
    latched encoder_faulty.error (update atan2_zero 0 encoder_faulty).2.error
    ∧ latched encoder_faulty.error
        (set_error ERROR_NO_RESPONSE { cal_still with error := ERROR_UNSTABLE_GAIN }).error :=
  have h := error_bits_latched atan2_zero 0 0 0 encoder_faulty 0 false
    { present := true, init_ok := true, config_encoder_mode_ok := true,
      start_encoder_ok := true } (spin_to 0) world_still
  ⟨h.2.2.1, h.2.2.2.2.2.2.2.2.2
    (false, set_error ERROR_NO_RESPONSE { cal_still with error := ERROR_UNSTABLE_GAIN })
    (by decide!)⟩

/-! ## C14: the unstable-gain flag -/

theorem delta_enc_error_cases (fa : ℚ → ℚ → ℚ) (s : Encoder) (e : Nat)
    (h : delta_enc fa s = Except.error e) :
    e = ERROR_ILLEGAL_HALL_STATE ∨ e = ERROR_UNSUPPORTED_ENCODER_MODE := by
  unfold delta_enc at h
  split at h
  · simp at h
  · split at h
    · simp at h
    · split at h
      · simp only [Except.error.injEq] at h
        left; exact h.symm
      · simp at h
  · simp at h
  · simp only [Except.error.injEq] at h
    right; exact h.symm

theorem update_state_check_gain (dt : ℚ) (d : Int) (s : Encoder) :
    update_state dt d (check_gain dt s)
      = { update_state dt d s with error := (check_gain dt s).error } := by
  rw [check_gain_eq]
  rfl

theorem sample_now_no_response (vs vc : ℚ) (s : Encoder) :
    has_error (sample_now vs vc s).error ERROR_NO_RESPONSE
      ↔ has_error s.error ERROR_NO_RESPONSE := by
  unfold sample_now
  split
  · exact Iff.rfl
  · exact Iff.rfl
  · exact Iff.rfl
  · exact has_error_or_disjoint _ _ _ (by decide)

theorem check_gain_no_response (dt : ℚ) (s : Encoder) :
    has_error (check_gain dt s).error ERROR_NO_RESPONSE
      ↔ has_error s.error ERROR_NO_RESPONSE := by
  rw [check_gain_error]
  split
  · exact Iff.rfl
  · exact has_error_or_disjoint _ _ _ (by decide)

theorem update_no_response (fa : ℚ → ℚ → ℚ) (dt : ℚ) (s : Encoder) :
    has_error (update fa dt s).2.error ERROR_NO_RESPONSE
      ↔ has_error s.error ERROR_NO_RESPONSE := by
  cases h : delta_enc fa s with
  | error e =>
    rw [update_of_error fa dt s h]
    show has_error ((check_gain dt s).error ||| e) ERROR_NO_RESPONSE ↔ _
    rcases delta_enc_error_cases fa s e h with he | he
    · rw [he]
      exact (has_error_or_disjoint _ _ _ (by decide)).trans (check_gain_no_response dt s)
    · rw [he]
      exact (has_error_or_disjoint _ _ _ (by decide)).trans (check_gain_no_response dt s)
  | ok d =>
    rw [update_of_ok fa dt s h]
    exact check_gain_no_response dt s

theorem estimator_tick_no_response (fa : ℚ → ℚ → ℚ) (dt vs vc : ℚ) (s : Encoder) :
    has_error (update fa dt (sample_now vs vc s)).2.error ERROR_NO_RESPONSE
      ↔ has_error s.error ERROR_NO_RESPONSE :=
  (update_no_response fa dt _).trans (sample_now_no_response vs vc s)

/-- C11 (as amended): when `run_offset_calibration` reaches the direction test (index
requirement met, motor type supported, motor armed, lock phase and forward scan ended
without axis error; `init_enc_val ± 8` within the 32-bit range), it raises
`ERROR_NO_RESPONSE` and returns false if the forward scan changed `shadow_count` by at
most 8 counts in magnitude, and it does not raise that flag if the change is more than 8
counts. `run_direction_find` never raises it: it writes no flag of its own, so `error`
afterwards is the prior `error` together with the flags that the estimator ticks of the
lock-in spin latched, and `ERROR_NO_RESPONSE` is set afterwards exactly if it was set
before, those ticks not latching it (an estimator tick, `sample_now` then `update`, never
changes that flag); when the spin succeeds and changed `shadow_count` by at most 8 counts
(`shadow_count ± 8` within the 32-bit range) the motor direction is set to 0, and when the
spin fails the direction stays at the 1 that was commanded. -/
theorem no_response_threshold (w : World) (s s1 s2 : Encoder) (v : ℚ) (acc : Int × Int)
    (sp : Spin)
    (hidx : (s.config.use_index && !s.index_found) = false)
    (hvolt : voltage_magnitude s.axis = some v)
    (harm : w.arm_foc = true)
    (hlock : run_control_loop (lock_handler w.lock_start_ms) w.lock ()
      { s with shadow_count := s.count_in_cpr, axis := { s.axis with armed := true } }
        = some ((), s1))
    (hlock_ok : s1.axis.error = 0)
    (hfwd : run_control_loop (scan_handler w.fwd_start_ms) w.fwd (0, 0) s1 = some (acc, s2))
    (hfwd_ok : s2.axis.error = 0)
    (h8 : isInt32 (s1.shadow_count + 8)) (hm8 : isInt32 (s1.shadow_count - 8)) :
    (s1.shadow_count - 8 ≤ s2.shadow_count ∧ s2.shadow_count ≤ s1.shadow_count + 8 →
      ∃ s', run_offset_calibration w s = some (false, s')
        ∧ has_error s'.error ERROR_NO_RESPONSE)
    ∧ (s2.shadow_count < s1.shadow_count - 8 ∨ s1.shadow_count + 8 < s2.shadow_count →
      ∀ r, run_offset_calibration w s = some r →
        (has_error r.2.error ERROR_NO_RESPONSE ↔ has_error s.error ERROR_NO_RESPONSE))
    ∧ (run_direction_find sp s).2.error = s.error ||| sp.error
    ∧ (sp.error &&& ERROR_NO_RESPONSE = 0 →
        (has_error (run_direction_find sp s).2.error ERROR_NO_RESPONSE
          ↔ has_error s.error ERROR_NO_RESPONSE))
    ∧ (sp.status = true → isInt32 (s.shadow_count + 8) → isInt32 (s.shadow_count - 8) →
        s.shadow_count - 8 ≤ (run_direction_find sp s).2.shadow_count
          ∧ (run_direction_find sp s).2.shadow_count ≤ s.shadow_count + 8 →
        (run_direction_find sp s).2.axis.direction = 0)
    ∧ (sp.status = false → (run_direction_find sp s).2.axis.direction = 1)
    ∧ (∀ (fa : ℚ → ℚ → ℚ) (dt vs vc : ℚ) (s0 : Encoder),
        has_error (update fa dt (sample_now vs vc s0)).2.error ERROR_NO_RESPONSE
          ↔ has_error s0.error ERROR_NO_RESPONSE) := by
  have hreach := run_offset_calibration_reach w s s1 s2 v acc hidx hvolt harm hlock hlock_ok
    hfwd hfwd_ok
  have c1 := calm_error (run_control_loop_calm _ _ _ _ _ hlock)
  have c2 := calm_error (run_control_loop_calm _ _ _ _ _ hfwd)
  have c12 : s2.error = s.error := c2.trans c1
  refine ⟨?_, ?_, run_direction_find_error sp s, ?_, ?_, ?_, estimator_tick_no_response⟩
  · intro h
    rw [hreach, scan_direction_none _ _ h8 hm8 h]
    exact ⟨_, rfl, has_error_or _ _⟩
  · intro h r hr
    obtain ⟨d, hd⟩ := scan_direction_some _ _ h8 hm8 h
    rw [hreach, hd] at hr
    rcases calibration_finish_error _ _ _ _ _ _ hr with e | e
    · rw [e, c12]
    · rw [e, c12]
      exact has_error_or_disjoint _ _ _ (by decide)
  · intro h
    rw [run_direction_find_error]
    exact has_error_or_disjoint _ _ _ h
  · intro hst g8 gm8 hin
    rw [run_direction_find_shadow_count] at hin
    rw [run_direction_find_axis]
    simp only [hst, if_true, toInt32_of_isInt32 g8, toInt32_of_isInt32 gm8]
    rw [if_neg (by omega), if_neg (by omega)]
  · intro hst
    rw [run_direction_find_axis]
    simp only [hst, Bool.false_eq_true, if_false]

/-- C11, witness: with `cpr = 2000` and seven pole pairs, a forward scan that moves 8
counts ends in `ERROR_NO_RESPONSE`; one that moves 4572 counts ends in
`ERROR_CPR_OUT_OF_RANGE` without raising `ERROR_NO_RESPONSE`; a direction find whose spin
moves 5 counts while its ticks latch `ERROR_UNSTABLE_GAIN` leaves exactly that flag in
`error`, not `ERROR_NO_RESPONSE`, and sets the direction to 0. -/
theorem no_response_threshold_witness :
    (∃ s', run_offset_calibration world_still (encoder_cal 0) = some (false, s')
        ∧ has_error s'.error ERROR_NO_RESPONSE)
    ∧ (has_error (set_error ERROR_CPR_OUT_OF_RANGE
          { cal_scanned with axis := { cal_scanned.axis with direction := 1 } }).error
          ERROR_NO_RESPONSE
        ↔ has_error (encoder_cal 0).error ERROR_NO_RESPONSE)
    ∧ (run_direction_find spin_gain (encoder_cal 0)).2.error
        = (encoder_cal 0).error ||| ERROR_UNSTABLE_GAIN
    ∧ (has_error (run_direction_find spin_gain (encoder_cal 0)).2.error ERROR_NO_RESPONSE
        ↔ has_error (encoder_cal 0).error ERROR_NO_RESPONSE)
    ∧ (run_direction_find spin_gain (encoder_cal 0)).2.axis.direction = 0 :=
  ⟨(no_response_threshold world_still (encoder_cal 0) cal_locked cal_still (fl32 (10 * 0.1))
      (10, 2) spin_gain rfl rfl rfl (by decide!) rfl (by decide!) rfl
      (by decide) (by decide)).1 (by decide),
   (no_response_threshold world_double (encoder_cal 0) cal_locked cal_scanned
      (fl32 (10 * 0.1)) (6858, 2) spin_gain rfl rfl rfl (by decide!) rfl (by decide!) rfl
      (by decide) (by decide)).2.1 (Or.inr (by decide))
      (false, set_error ERROR_CPR_OUT_OF_RANGE
        { cal_scanned with axis := { cal_scanned.axis with direction := 1 } })
      (by decide!),
   (no_response_threshold world_still (encoder_cal 0) cal_locked cal_still (fl32 (10 * 0.1))
      (10, 2) spin_gain rfl rfl rfl (by decide!) rfl (by decide!) rfl
      (by decide) (by decide)).2.2.1,
   (no_response_threshold world_still (encoder_cal 0) cal_locked cal_still (fl32 (10 * 0.1))
      (10, 2) spin_gain rfl rfl rfl (by decide!) rfl (by decide!) rfl
      (by decide) (by decide)).2.2.2.1 (by decide),
   (no_response_threshold world_still (encoder_cal 0) cal_locked cal_still (fl32 (10 * 0.1))
      (10, 2) spin_gain rfl rfl rfl (by decide!) rfl (by decide!) rfl
      (by decide) (by decide)).2.2.2.2.1 rfl (by decide) (by decide) (by decide!)⟩

/-- C11, counterexample: a forward scan that changes `shadow_count` by exactly 8 counts
makes `run_offset_calibration` return false with `ERROR_NO_RESPONSE` raised, and a
direction find whose spin succeeds without moving the encoder raises nothing: `error`
stays 0 and the direction is set to 0. -/
theorem no_response_threshold_counterexample :
    ((run_offset_calibration world_still (encoder_cal 0)).map
        (fun r => (r.1, r.2.error, r.2.shadow_count - cal_locked.shadow_count))
        = some (false, ERROR_NO_RESPONSE, 8))
    ∧ ((run_direction_find (spin_to 0) (encoder_cal 0)).1 = true
      ∧ (run_direction_find (spin_to 0) (encoder_cal 0)).2.shadow_count
          - (encoder_cal 0).shadow_count = 0
      ∧ (run_direction_find (spin_to 0) (encoder_cal 0)).2.error = 0
      ∧ ¬ has_error (run_direction_find (spin_to 0) (encoder_cal 0)).2.error
          ERROR_NO_RESPONSE
      ∧ (run_direction_find (spin_to 0) (encoder_cal 0)).2.axis.direction = 0) := by
  decide!

/-! ## C15: the interpolation stays within one count -/

theorem update_state_vel_estimate (dt : ℚ) (d : Int) (s : Encoder) :
    (update_state dt d s).vel_estimate
      = if snap_to_zero_vel dt d s then 0 else pll_vel dt d s := rfl

theorem update_state_interpolation (dt : ℚ) (d : Int) (s : Encoder) :
    (update_state dt d s).interpolation
      = if snap_to_zero_vel dt d s || !s.config.enable_phase_interpolation then 0.5
        else if d > 0 then 0
        else if d < 0 then 1
        else clamp01 (s.interpolation + dt * (update_state dt d s).vel_estimate) := rfl

theorem clamp01_bounds (x : ℚ) : 0 ≤ clamp01 x ∧ clamp01 x ≤ 1 := by
  unfold clamp01
  dsimp only
  split_ifs <;> constructor <;> linarith

theorem update_ok_fields (fa : ℚ → ℚ → ℚ) (dt : ℚ) (s : Encoder) {d : Int}
    (h : delta_enc fa s = Except.ok d) :
    (update fa dt s).2.vel_estimate = (update_state dt d s).vel_estimate
    ∧ (update fa dt s).2.interpolation = (update_state dt d s).interpolation
    ∧ (update fa dt s).2.phase = (update_state dt d s).phase := by
  rw [update_of_ok fa dt s h]
  show (update_state dt d (check_gain dt s)).vel_estimate = _
    ∧ (update_state dt d (check_gain dt s)).interpolation = _
    ∧ (update_state dt d (check_gain dt s)).phase = _
  rw [update_state_check_gain]
  exact ⟨rfl, rfl, rfl⟩

/-- C15: for every prior state (whatever the prior interpolation), every `dt` and every
`vel_estimate` (exact rationals), after every `update` that returns true, with `d` the raw
delta of the tick: the interpolation is 0.5 when the velocity was snapped to zero (then
`vel_estimate = 0`) or phase interpolation is disabled; else 0 after a positive raw delta;
else 1 after a negative raw delta; and otherwise the previous value plus
`dt·vel_estimate` clamped to `[0, 1]`. In every case `0 ≤ interpolation ≤ 1`. -/
theorem interpolation_clamp (fa : ℚ → ℚ → ℚ) (dt : ℚ) (s : Encoder)
    (h : (update fa dt s).1 = true) :
    ∃ d, delta_enc fa s = Except.ok d
      ∧ (update fa dt s).2.interpolation
        = (if snap_to_zero_vel dt d s || !s.config.enable_phase_interpolation then 0.5
          else if d > 0 then 0
          else if d < 0 then 1
          else clamp01 (s.interpolation + dt * (update fa dt s).2.vel_estimate))
      ∧ (snap_to_zero_vel dt d s = true → (update fa dt s).2.vel_estimate = 0)
      ∧ 0 ≤ (update fa dt s).2.interpolation
      ∧ (update fa dt s).2.interpolation ≤ 1 := by
  obtain ⟨d, hd⟩ := (update_true_iff fa dt s).1 h
  obtain ⟨hv, hi, -⟩ := update_ok_fields fa dt s hd
  have hval := update_state_interpolation dt d s
  refine ⟨d, hd, ?_, ?_, ?_, ?_⟩
  · rw [hi, hv]
    exact hval
  · intro hsnap
    rw [hv, update_state_vel_estimate, hsnap]
    rfl
  · rw [hi, hval]
    split_ifs
    · norm_num
    · exact le_refl _
    · norm_num
    · exact (clamp01_bounds _).1
  · rw [hi, hval]
    split_ifs
    · norm_num
    · norm_num
    · exact le_refl _
    · exact (clamp01_bounds _).2

/-- C15, witness: from a stale interpolation of 7, a tick without encoder edge at 8000
counts per second clamps the interpolation to 1. -/
theorem interpolation_clamp_witness :
    (update atan2_zero (1 / 8000) encoder_moving).2.interpolation = 1
    ∧ ∃ d, delta_enc atan2_zero encoder_moving = Except.ok d
      ∧ (update atan2_zero (1 / 8000) encoder_moving).2.interpolation
        = (if snap_to_zero_vel (1 / 8000) d encoder_moving
              || !encoder_moving.config.enable_phase_interpolation then 0.5
          else if d > 0 then 0
          else if d < 0 then 1
          else clamp01 (encoder_moving.interpolation
            + 1 / 8000 * (update atan2_zero (1 / 8000) encoder_moving).2.vel_estimate))
      ∧ (snap_to_zero_vel (1 / 8000) d encoder_moving = true →
          (update atan2_zero (1 / 8000) encoder_moving).2.vel_estimate = 0)
      ∧ 0 ≤ (update atan2_zero (1 / 8000) encoder_moving).2.interpolation
      ∧ (update atan2_zero (1 / 8000) encoder_moving).2.interpolation ≤ 1 :=
  ⟨by decide!, interpolation_clamp atan2_zero (1 / 8000) encoder_moving (by decide!)⟩

/-! ## C16: readiness at power-on -/

theorem set_idx_subscribe_is_ready (b : Bool) (s : Encoder) :
    (set_idx_subscribe b s).is_ready = s.is_ready := by
  unfold set_idx_subscribe
  dsimp only
  split <;> split <;> rfl

theorem init_is_ready (hw : CounterHw) (s : Encoder) :
    (init hw s).2.is_ready
      = (s.is_ready || (s.config.pre_calibrated
          && (s.config.mode == Mode.MODE_HALL || s.config.mode == Mode.MODE_SINCOS))) := by
  unfold init
  dsimp only
  split_ifs <;> simp_all [set_idx_subscribe_is_ready, update_pll_gains]

/-- C16: after `init` on a freshly constructed estimator (`is_ready = false`), whatever
the counter answers, `is_ready` is true if and only if `pre_calibrated` is set and the mode
is HALL or SINCOS; in INCREMENTAL mode `init` never sets `is_ready`. -/
theorem power_on_ready (hw : CounterHw) (s : Encoder) (h : s.is_ready = false) :
    ((init hw s).2.is_ready = true ↔
      s.config.pre_calibrated = true
      ∧ (s.config.mode = Mode.MODE_HALL ∨ s.config.mode = Mode.MODE_SINCOS))
    ∧ (s.config.mode = Mode.MODE_INCREMENTAL → (init hw s).2.is_ready = false) := by
  rw [init_is_ready, h]
  constructor
  · simp
  · intro hm
    simp [hm]

/-- C16, witness: a pre-calibrated estimator is ready after `init` in HALL mode and not
ready in INCREMENTAL mode. -/
theorem power_on_ready_witness :
    (init counter_ok { encoder_hall 42 with
        config := { (encoder_hall 42).config with pre_calibrated := true } }).2.is_ready = true
    ∧ (init counter_ok { encoder0 with
        config := { encoder0.config with pre_calibrated := true } }).2.is_ready = false :=
  ⟨(power_on_ready counter_ok { encoder_hall 42 with
        config := { (encoder_hall 42).config with pre_calibrated := true } } rfl).1.2
      ⟨rfl, Or.inl rfl⟩,
   (power_on_ready counter_ok { encoder0 with
        config := { encoder0.config with pre_calibrated := true } } rfl).2 rfl⟩

/-! ## C17: an index event without pre-calibration -/

/-- C17 (as amended): for every state with `pre_calibrated = false`, after the index
callback `is_ready` is false when `use_index` is set; with `use_index` off the callback
leaves `is_ready` as it was. -/
theorem index_event_clears_ready (s : Encoder) (hp : s.config.pre_calibrated = false) :
    (s.config.use_index = true → (enc_index_cb s).is_ready = false)
    ∧ (s.config.use_index = false → (enc_index_cb s).is_ready = s.is_ready) := by
  constructor
  · intro hu
    cases hz : s.config.zero_count_on_find_idx <;>
      simp [enc_index_cb, set_circular_count, set_linear_count, hu, hz, hp]
  · intro hu
    simp [enc_index_cb, hu]

/-- C17, witness: a ready estimator that is not pre-calibrated, with the index in use, is
not ready after the callback. -/
theorem index_event_clears_ready_witness :
    (enc_index_cb { encoder_ready with
        config := { encoder_ready.config with use_index := true } }).is_ready = false :=
  (index_event_clears_ready { encoder_ready with
        config := { encoder_ready.config with use_index := true } } rfl).1 rfl

/-- C17, counterexample: a ready estimator with `pre_calibrated = false` and `use_index`
off is still ready after the index callback. -/
theorem index_event_clears_ready_counterexample :
    encoder_ready.config.pre_calibrated = false
    ∧ (enc_index_cb encoder_ready).is_ready = true := by
  decide

/-! ## C18: linear and circular count after a circular write -/

/-- C18 (as amended): for every state and every `n`, immediately after
`set_circular_count n true` the circular count is congruent to `n` modulo `cpr` and
`shadow_count` is unchanged, so `count_in_cpr` is congruent to `shadow_count` modulo
`cpr` exactly when `shadow_count` was congruent to `n`; in particular after
`set_linear_count n` followed by `set_circular_count n true`. -/
theorem circular_write_agreement (n : Int) (s : Encoder) :
    (set_circular_count n true s).count_in_cpr % s.config.cpr = n % s.config.cpr
    ∧ (set_circular_count n true s).shadow_count = s.shadow_count
    ∧ ((set_circular_count n true s).count_in_cpr % s.config.cpr
          = (set_circular_count n true s).shadow_count % s.config.cpr
        ↔ s.shadow_count % s.config.cpr = n % s.config.cpr)
    ∧ (set_circular_count n true (set_linear_count n s)).count_in_cpr % s.config.cpr
        = (set_circular_count n true (set_linear_count n s)).shadow_count % s.config.cpr := by
  have hc : (set_circular_count n true s).count_in_cpr = n % s.config.cpr := rfl
  have hs : (set_circular_count n true s).shadow_count = s.shadow_count := rfl
  have hc2 : (set_circular_count n true (set_linear_count n s)).count_in_cpr
      = n % s.config.cpr := rfl
  have hs2 : (set_circular_count n true (set_linear_count n s)).shadow_count = n := rfl
  have hmm : n % s.config.cpr % s.config.cpr = n % s.config.cpr :=
    Int.emod_emod_of_dvd n (dvd_refl _)
  rw [hc, hs, hc2, hs2, hmm]
  exact ⟨rfl, rfl, ⟨fun h => h.symm, fun h => h.symm⟩, rfl⟩

/-- C18, counterexample: with `cpr = 8192` and `shadow_count = 0`, after
`set_circular_count 1 true` the circular count is 1 and `shadow_count` is still 0: they
are not congruent modulo `cpr`. -/
theorem circular_write_agreement_counterexample :
    (0 : Int) < encoder0.config.cpr
    ∧ (set_circular_count 1 true encoder0).count_in_cpr = 1
    ∧ (set_circular_count 1 true encoder0).shadow_count = 0
    ∧ (set_circular_count 1 true encoder0).count_in_cpr
          % (set_circular_count 1 true encoder0).config.cpr
        ≠ (set_circular_count 1 true encoder0).shadow_count
          % (set_circular_count 1 true encoder0).config.cpr := by
  decide

/-! ## C19: the range of `offset_float` -/

theorem calibration_finish_success (w : World) (init_enc_val : Int) (acc acc2 : Int × Int)
    (d : Int) (s s3 : Encoder)
    (hcpr : cpr_out_of_range { s with axis := { s.axis with direction := d } } init_enc_val
      = false)
    (hbwd : run_control_loop (scan_handler w.bwd_start_ms) w.bwd acc
      { s with axis := { s.axis with direction := d } } = some (acc2, s3))
    (hbwd_ok : s3.axis.error = 0) :
    calibration_finish w init_enc_val acc d s
      = some (true, { store_offset acc2.1 acc2.2 s3 with is_ready := true }) := by
  have e3 : ¬ s3.axis.error ≠ 0 := not_not.mpr hbwd_ok
  unfold calibration_finish
  dsimp only
  rw [hcpr]
  simp only [Bool.false_eq_true, if_false, hbwd]
  rw [if_neg e3]

/-- C19 (as amended): when `run_offset_calibration` succeeds (`cpr > 0` and
`pole_pairs > 0`; index requirement met, motor type supported, motor armed, the three loops
ended without axis error, direction and CPR tests passed) with accumulated `encvaluesum ≥ 0` and `0 < num_steps < 2^30` (the sum below
`2^63` and the quotient within the 32-bit range), `config.offset` is the integer quotient
`encvaluesum / (2·num_steps)`, its fractional complement is
`residual / (2·num_steps) = encvaluesum / (2·num_steps) - offset` with `residual` the
remainder, and `config.offset_float` is that complement shifted by one half as the code
computes it in single precision, `fl32 (fl32 (fl32 residual / fl32 (2·num_steps)) + 0.5)`;
it lies in the closed interval `[0.5, 1.5]`. -/
theorem offset_float_range (w : World) (s s1 s2 s3 : Encoder) (v : ℚ) (acc acc2 : Int × Int)
    (d : Int) (_hcpr_pos : 0 < s.config.cpr) (_hpole_pos : 0 < s.axis.pole_pairs)
    (hidx : (s.config.use_index && !s.index_found) = false)
    (hvolt : voltage_magnitude s.axis = some v)
    (harm : w.arm_foc = true)
    (hlock : run_control_loop (lock_handler w.lock_start_ms) w.lock ()
      { s with shadow_count := s.count_in_cpr, axis := { s.axis with armed := true } }
        = some ((), s1))
    (hlock_ok : s1.axis.error = 0)
    (hfwd : run_control_loop (scan_handler w.fwd_start_ms) w.fwd (0, 0) s1 = some (acc, s2))
    (hfwd_ok : s2.axis.error = 0)
    (hdir : scan_direction s1.shadow_count s2 = some d)
    (hcpr : cpr_out_of_range { s2 with axis := { s2.axis with direction := d } }
      s1.shadow_count = false)
    (hbwd : run_control_loop (scan_handler w.bwd_start_ms) w.bwd acc
      { s2 with axis := { s2.axis with direction := d } } = some (acc2, s3))
    (hbwd_ok : s3.axis.error = 0)
    (h0 : 0 ≤ acc2.1) (hs : acc2.1 < 9223372036854775808)
    (hn : 0 < acc2.2) (hn2 : acc2.2 < 1073741824)
    (hq : acc2.1 / (acc2.2 * 2) ≤ 2147483647) :
    ∃ s', run_offset_calibration w s = some (true, s')
      ∧ s'.config.offset = acc2.1 / (acc2.2 * 2)
      ∧ (s'.config.offset : ℚ) + ((acc2.1 % (acc2.2 * 2) : Int) : ℚ) / (2 * (acc2.2 : ℚ))
          = (acc2.1 : ℚ) / (2 * (acc2.2 : ℚ))
      ∧ s'.config.offset_float
          = fl32 (fl32 (fl32 ((acc2.1 % (acc2.2 * 2) : Int) : ℚ)
              / fl32 ((acc2.2 * 2 : Int) : ℚ)) + 0.5)
      ∧ 0.5 ≤ s'.config.offset_float
      ∧ s'.config.offset_float ≤ 1.5 := by
  have hreach := run_offset_calibration_reach w s s1 s2 v acc hidx hvolt harm hlock hlock_ok
    hfwd hfwd_ok
  have hfin := calibration_finish_success w s1.shadow_count acc acc2 d s2 s3 hcpr hbwd hbwd_ok
  obtain ⟨hoff, hfl⟩ := store_offset_of_nonneg acc2.1 acc2.2 s3 h0 hs hn hn2 hq
  have hm : 0 < acc2.2 * 2 := by omega
  have hmq : (0 : ℚ) < ((acc2.2 * 2 : Int) : ℚ) := by exact_mod_cast hm
  have hm1 : (1 : ℚ) ≤ ((acc2.2 * 2 : Int) : ℚ) := by
    have : (1 : Int) ≤ acc2.2 * 2 := by omega
    exact_mod_cast this
  have hr0 : 0 ≤ acc2.1 % (acc2.2 * 2) := Int.emod_nonneg _ (ne_of_gt hm)
  have hr1 : acc2.1 % (acc2.2 * 2) < acc2.2 * 2 := Int.emod_lt_of_pos _ hm
  have hr0q : (0 : ℚ) ≤ ((acc2.1 % (acc2.2 * 2) : Int) : ℚ) := by exact_mod_cast hr0
  have hr1q : ((acc2.1 % (acc2.2 * 2) : Int) : ℚ) ≤ ((acc2.2 * 2 : Int) : ℚ) := by
    exact_mod_cast le_of_lt hr1
  -- the quotient of the two rounded operands lies in `[0, 1]`, and so does its rounding
  have hfm : (1 : ℚ) ≤ fl32 ((acc2.2 * 2 : Int) : ℚ) := fl32_pos hm1
  have hfr0 : (0 : ℚ) ≤ fl32 ((acc2.1 % (acc2.2 * 2) : Int) : ℚ) := fl32_nonneg hr0q
  have hfr1 : fl32 ((acc2.1 % (acc2.2 * 2) : Int) : ℚ) ≤ fl32 ((acc2.2 * 2 : Int) : ℚ) :=
    fl32_mono hr0q hr1q
  have hq0 : (0 : ℚ) ≤ fl32 ((acc2.1 % (acc2.2 * 2) : Int) : ℚ)
      / fl32 ((acc2.2 * 2 : Int) : ℚ) := div_nonneg hfr0 (by linarith)
  have hq1 : fl32 ((acc2.1 % (acc2.2 * 2) : Int) : ℚ) / fl32 ((acc2.2 * 2 : Int) : ℚ) ≤ 1 :=
    (div_le_one (by linarith)).mpr hfr1
  have e1 : fl32 1 = 1 := by decide!
  have e05 : fl32 0.5 = 0.5 := by decide!
  have e15 : fl32 1.5 = 1.5 := by decide!
  have hfq0 := fl32_nonneg hq0
  have hfq1 := fl32_mono hq0 hq1
  rw [e1] at hfq1
  have hlo : fl32 0.5 ≤ fl32 (fl32 (fl32 ((acc2.1 % (acc2.2 * 2) : Int) : ℚ)
      / fl32 ((acc2.2 * 2 : Int) : ℚ)) + 0.5) :=
    fl32_mono (by norm_num) (by linarith)
  have hhi : fl32 (fl32 (fl32 ((acc2.1 % (acc2.2 * 2) : Int) : ℚ)
      / fl32 ((acc2.2 * 2 : Int) : ℚ)) + 0.5) ≤ fl32 1.5 :=
    fl32_mono (by linarith) (by
      have h15 : (1.5 : ℚ) = 1 + 0.5 := by norm_num
      rw [h15]
      linarith)
  rw [e05] at hlo
  rw [e15] at hhi
  refine ⟨{ store_offset acc2.1 acc2.2 s3 with is_ready := true },
    by rw [hreach, hdir]; exact hfin, hoff, ?_, hfl, ?_, ?_⟩
  · show ((store_offset acc2.1 acc2.2 s3).config.offset : ℚ) + _ = _
    rw [hoff]
    have hsplit : (acc2.1 : ℚ)
        = ((acc2.1 / (acc2.2 * 2) : Int) : ℚ) * ((acc2.2 * 2 : Int) : ℚ)
          + ((acc2.1 % (acc2.2 * 2) : Int) : ℚ) := by
      have := Int.ediv_add_emod acc2.1 (acc2.2 * 2)
      have h2 : acc2.1 = acc2.1 / (acc2.2 * 2) * (acc2.2 * 2) + acc2.1 % (acc2.2 * 2) := by
        rw [mul_comm]; exact this.symm
      exact_mod_cast h2
    have hm2 : (2 * (acc2.2 : ℚ)) = ((acc2.2 * 2 : Int) : ℚ) := by push_cast; ring
    have hne : ((acc2.2 * 2 : Int) : ℚ) ≠ 0 := ne_of_gt hmq
    rw [hm2, eq_div_iff hne, add_mul, div_mul_cancel₀ _ hne]
    exact hsplit.symm
  · show (0.5 : ℚ) ≤ (store_offset acc2.1 acc2.2 s3).config.offset_float
    rw [hfl]
    exact hlo
  · show (store_offset acc2.1 acc2.2 s3).config.offset_float ≤ 1.5
    rw [hfl]
    exact hhi

/-- C19, witness: with `cpr = 2000` and seven pole pairs, the samples 1143, 2286, 1143, 1
add up to 4573 over 4 steps: `offset = 571`, the remainder is 5 and `offset_float`, the
single-precision value of `5/8 + 0.5`, lies in `[0.5, 1.5]`. -/
theorem offset_float_range_witness :
    ∃ s', run_offset_calibration world_forward (encoder_cal 0) = some (true, s')
      ∧ s'.config.offset = 4573 / (4 * 2)
      ∧ (s'.config.offset : ℚ) + (((4573 : Int) % (4 * 2) : Int) : ℚ) / (2 * ((4 : Int) : ℚ))
          = ((4573 : Int) : ℚ) / (2 * ((4 : Int) : ℚ))
      ∧ s'.config.offset_float
          = fl32 (fl32 (fl32 (((4573 : Int) % (4 * 2) : Int) : ℚ)
              / fl32 (((4 : Int) * 2 : Int) : ℚ)) + 0.5)
      ∧ 0.5 ≤ s'.config.offset_float
      ∧ s'.config.offset_float ≤ 1.5 :=
  offset_float_range world_forward (encoder_cal 0) cal_locked cal_forward cal_back
    (fl32 (10 * 0.1)) (3429, 2) (4573, 4) 1 (by decide) (by decide)
    rfl rfl rfl (by decide!) rfl (by decide!) rfl (by decide) (by decide!) (by decide!) rfl
    (by decide) (by decide) (by decide) (by decide) (by decide)

/-- C19, counterexample: the successful calibration of `world_forward` stores
`offset = 571` and `offset_float = 9/8`, which is not in `(-0.5, 0.5]`. The upper end 1.5
is reached: with `encvaluesum = 2^25 - 1` and `num_steps = 2^24` the remainder `2^25 - 1`
rounds to the `float` `2^25` and `offset_float` is exactly 1.5, next to `offset = 0`. -/
theorem offset_float_range_counterexample :
    (run_offset_calibration world_forward (encoder_cal 0)).map
        (fun r => (r.1, r.2.config.offset, r.2.config.offset_float))
        = some (true, 571, 9 / 8)
    ∧ ¬ ((-0.5 : ℚ) < 9 / 8 ∧ (9 / 8 : ℚ) ≤ 0.5)
    ∧ (store_offset 33554431 16777216 cal_back).config.offset = 0
    ∧ (store_offset 33554431 16777216 cal_back).config.offset_float = 3 / 2 := by
  decide!

theorem calibration_finish_true (w : World) (init_enc_val : Int) (acc : Int × Int) (d : Int)
    (s s' : Encoder) (h : calibration_finish w init_enc_val acc d s = some (true, s')) :
    ∃ acc2 s3,
      cpr_out_of_range { s with axis := { s.axis with direction := d } } init_enc_val = false
      ∧ run_control_loop (scan_handler w.bwd_start_ms) w.bwd acc
          { s with axis := { s.axis with direction := d } } = some (acc2, s3)
      ∧ s3.axis.error = 0
      ∧ s' = { store_offset acc2.1 acc2.2 s3 with is_ready := true } := by
  unfold calibration_finish at h
  dsimp only at h
  split at h
  · simp at h
  · rename_i hc
    split at h
    · simp at h
    · rename_i acc2 s3 hbwd
      split at h
      · simp at h
      · rename_i hok
        simp only [Option.some.injEq, Prod.mk.injEq, true_and] at h
        exact ⟨acc2, s3, by simpa using hc, hbwd, not_not.mp hok, h.symm⟩

theorem run_offset_calibration_true (w : World) (s s' : Encoder)
    (h : run_offset_calibration w s = some (true, s')) :
    ∃ v s1 acc s2 d,
      (s.config.use_index && !s.index_found) = false
      ∧ voltage_magnitude s.axis = some v
      ∧ w.arm_foc = true
      ∧ run_control_loop (lock_handler w.lock_start_ms) w.lock ()
          { s with shadow_count := s.count_in_cpr, axis := { s.axis with armed := true } }
            = some ((), s1)
      ∧ s1.axis.error = 0
      ∧ run_control_loop (scan_handler w.fwd_start_ms) w.fwd (0, 0) s1 = some (acc, s2)
      ∧ s2.axis.error = 0
      ∧ scan_direction s1.shadow_count s2 = some d
      ∧ calibration_finish w s1.shadow_count acc d s2 = some (true, s') := by
  unfold run_offset_calibration at h
  split at h
  · simp at h
  · rename_i hidx
    simp only at h
    split at h
    · simp at h
    · rename_i v hv
      split at h
      · simp at h
      · rename_i harm
        split at h
        · simp at h
        · rename_i u1 s1 hlock
          split at h
          · simp at h
          · rename_i hok1
            split at h
            · simp at h
            · rename_i acc s2 hfwd
              split at h
              · simp at h
              · rename_i hok2
                split at h
                · simp at h
                · rename_i d hd
                  exact ⟨v, s1, acc, s2, d, by simpa using hidx, hv, by simpa using harm,
                    hlock, not_not.mp hok1, hfwd, not_not.mp hok2, hd, h⟩

/-! ## C20: the zero-velocity snap on a tick without motion -/

theorem f2i_intCast (k : Int) (h : isInt32 k) : f2i (k : ℚ) = k := by
  unfold isInt32 at h
  unfold f2i
  simp only [Int.floor_intCast, Int.ceil_intCast, ite_self]
  rw [if_neg (by omega), if_neg (by omega)]

theorem wrap_pm_zero (r : ℚ) : wrap_pm 0 r = 0 := by
  unfold wrap_pm
  by_cases hr : r = 0
  · simp [hr]
  · have h1 : (0 - r) / (2 * r) = -(1 / 2) := by
      field_simp
      ring
    have h2 : ⌈(-(1 / 2) : ℚ)⌉ = 0 := by
      rw [Int.ceil_eq_iff]
      norm_num
    rw [h1, h2]
    simp

theorem pll_delta_pos_cpr_zero (dt : ℚ) (s : Encoder)
    (hv : s.vel_estimate = 0)
    (hc : 0 ≤ s.count_in_cpr ∧ s.count_in_cpr < s.config.cpr)
    (h32 : isInt32 s.count_in_cpr)
    (hpos : ⌊s.pos_cpr⌋ = s.count_in_cpr) :
    pll_delta_pos_cpr dt 0 s = 0 := by
  unfold pll_delta_pos_cpr
  dsimp only
  have e1 : mod (toInt32 (s.count_in_cpr + 0)) s.config.cpr = s.count_in_cpr := by
    rw [add_zero, toInt32_of_isInt32 h32]
    exact Int.emod_eq_of_lt hc.1 hc.2
  have e2 : s.pos_cpr + dt * s.vel_estimate = s.pos_cpr := by
    rw [hv]; ring
  rw [e1, e2, hpos, f2i_intCast _ h32, sub_self]
  have e3 : toInt32 0 = 0 := by decide
  rw [e3]
  exact wrap_pm_zero _

theorem pll_vel_of_rest (dt : ℚ) (d : Int) (s : Encoder) (hv : s.vel_estimate = 0) :
    pll_vel dt d s = dt * s.pll_ki * pll_delta_pos_cpr dt d s := by
  unfold pll_vel
  rw [hv, zero_add]

theorem snap_iff_of_rest (dt : ℚ) (d : Int) (s : Encoder) (hv : s.vel_estimate = 0)
    (hdt : 0 < dt) (hki : 0 < s.pll_ki) :
    snap_to_zero_vel dt d s = true ↔ |pll_delta_pos_cpr dt d s| < 1 / 2 := by
  have hk : 0 < dt * s.pll_ki := mul_pos hdt hki
  unfold snap_to_zero_vel
  rw [decide_eq_true_eq, pll_vel_of_rest dt d s hv, abs_mul, abs_of_pos hk]
  constructor
  · intro h
    have h' : dt * s.pll_ki * |pll_delta_pos_cpr dt d s| < dt * s.pll_ki * (1 / 2) := by
      have e : (0.5 : ℚ) * dt * s.pll_ki = dt * s.pll_ki * (1 / 2) := by norm_num; ring
      rw [← e]; exact h
    exact lt_of_mul_lt_mul_left h' (le_of_lt hk)
  · intro h
    have e : (0.5 : ℚ) * dt * s.pll_ki = dt * s.pll_ki * (1 / 2) := by norm_num; ring
    rw [e]
    exact mul_lt_mul_of_pos_left h hk

/-- C20 (as amended): for every state with `vel_estimate = 0` (as an update that snapped
the velocity leaves it), every `dt > 0` and `pll_ki > 0` (exact rationals), if the next
tick has zero sensor motion (raw delta 0), then `vel_estimate` is exactly 0 after that
update if and only if the wrapped residual `delta_pos_cpr` of the circular phase detector
is smaller than one half in magnitude; this is the case when the position estimate has
caught up with the count, `floor(pos_cpr) = count_in_cpr` with `0 ≤ count_in_cpr < cpr`. -/
theorem zero_velocity_snap (fa : ℚ → ℚ → ℚ) (dt : ℚ) (s : Encoder)
    (hv : s.vel_estimate = 0) (hdt : 0 < dt) (hki : 0 < s.pll_ki)
    (hd : delta_enc fa s = Except.ok 0) :
    ((update fa dt s).2.vel_estimate = 0 ↔ |pll_delta_pos_cpr dt 0 s| < 1 / 2)
    ∧ (0 ≤ s.count_in_cpr ∧ s.count_in_cpr < s.config.cpr → isInt32 s.count_in_cpr →
        ⌊s.pos_cpr⌋ = s.count_in_cpr → (update fa dt s).2.vel_estimate = 0) := by
  have hk : 0 < dt * s.pll_ki := mul_pos hdt hki
  have hvel : (update fa dt s).2.vel_estimate
      = if snap_to_zero_vel dt 0 s then 0 else pll_vel dt 0 s := by
    rw [(update_ok_fields fa dt s hd).1, update_state_vel_estimate]
  have hiff : (update fa dt s).2.vel_estimate = 0 ↔ |pll_delta_pos_cpr dt 0 s| < 1 / 2 := by
    rw [hvel]
    by_cases hsnap : snap_to_zero_vel dt 0 s = true
    · rw [if_pos hsnap]
      exact ⟨fun _ => (snap_iff_of_rest dt 0 s hv hdt hki).1 hsnap, fun _ => rfl⟩
    · rw [if_neg hsnap]
      have hnot : ¬ |pll_delta_pos_cpr dt 0 s| < 1 / 2 :=
        fun h => hsnap ((snap_iff_of_rest dt 0 s hv hdt hki).2 h)
      constructor
      · intro h0
        rw [pll_vel_of_rest dt 0 s hv] at h0
        have hz : pll_delta_pos_cpr dt 0 s = 0 := by
          rcases mul_eq_zero.1 h0 with h | h
          · exact absurd h (ne_of_gt hk)
          · exact h
        rw [hz]
        norm_num
      · intro h
        exact absurd h hnot
  refine ⟨hiff, ?_⟩
  intro hc h32 hpos
  rw [hiff, pll_delta_pos_cpr_zero dt s hv hc h32 hpos]
  norm_num

/-- C20, witness: the estimator at rest at count 0 with `pos_cpr = 0`, `dt` of 125 µs:
the velocity estimate stays 0. -/
theorem zero_velocity_snap_witness :
    (update atan2_zero (1 / 8000) encoder0).2.vel_estimate = 0 :=
  (zero_velocity_snap atan2_zero (1 / 8000) encoder0 rfl (by decide!) (by decide!) rfl).2
    (by decide) (by decide) (by decide!)

/-- C20, counterexample: with `dt` of 125 µs and `pll_ki = 10^6`, the update of
`encoder_overshoot` (zero raw delta) snaps `vel_estimate` to 0 while `pos_cpr` is still
behind the count; the next update, again with zero raw delta, leaves
`vel_estimate = 1000`. -/
theorem zero_velocity_snap_counterexample :
    snap_to_zero_vel (1 / 8000) 0 encoder_overshoot = true
    ∧ (update atan2_zero (1 / 8000) encoder_overshoot).1 = true
    ∧ (update atan2_zero (1 / 8000) encoder_overshoot).2.vel_estimate = 0
    ∧ (0 : ℚ) < (update atan2_zero (1 / 8000) encoder_overshoot).2.pll_ki
    ∧ (delta_enc atan2_zero (update atan2_zero (1 / 8000) encoder_overshoot).2).toOption
        = some 0
    ∧ (update atan2_zero (1 / 8000)
        (update atan2_zero (1 / 8000) encoder_overshoot).2).2.vel_estimate = 1000 := by
  decide!

/-! ## C25: the outcome of `set_idx_subscribe` -/

/-- C25: with the armed state of the index interrupt modelled as the boolean
`index_subscribed`, for every state (so every config and every prior armed state) and both
values of `override_enable`, after `set_idx_subscribe override_enable` the interrupt is
armed if and only if `use_index` is true and `find_idx_on_lockin_only` is false; the final
armed state is the same for `override_enable = true` and `override_enable = false`. -/
theorem set_idx_subscribe_outcome (override_enable : Bool) (s : Encoder) :
    ((set_idx_subscribe override_enable s).index_subscribed = true
        ↔ (s.config.use_index = true ∧ s.config.find_idx_on_lockin_only = false))
    ∧ (set_idx_subscribe true s).index_subscribed
        = (set_idx_subscribe false s).index_subscribed := by
  unfold set_idx_subscribe
  cases override_enable <;> cases hu : s.config.use_index
    <;> cases hf : s.config.find_idx_on_lockin_only <;> simp [hu, hf]

/-! ## C21: the ramp of counter readings -/

theorem sample_tick_spec (fa : ℚ → ℚ → ℚ) (dt : ℚ) (s : Encoder) (cnt d : Int)
    (hmode : s.config.mode = Mode.MODE_INCREMENTAL)
    (hd : -32768 ≤ d ∧ d ≤ 32767) (hcnt : cnt = (s.shadow_count + d) % 65536)
    (hfit : isInt32 (s.shadow_count + d)) (hfit2 : isInt32 (s.count_in_cpr + d)) :
    (sample_tick fa dt s cnt).config = s.config
    ∧ (sample_tick fa dt s cnt).shadow_count = s.shadow_count + d
    ∧ (sample_tick fa dt s cnt).count_in_cpr = (s.count_in_cpr + d) % s.config.cpr := by
  have hmode1 : ({ s with CNT := cnt } : Encoder).config.mode = Mode.MODE_INCREMENTAL := hmode
  have hup := update_sample_incremental fa dt 0 0 ({ s with CNT := cnt })
    s.shadow_count d hmode1 rfl hd hcnt
  have hsn := sample_now_incremental 0 0 ({ s with CNT := cnt }) hmode1
  show (update fa dt (sample_now 0 0 { s with CNT := cnt })).2.config = _
    ∧ (update fa dt (sample_now 0 0 { s with CNT := cnt })).2.shadow_count = _
    ∧ (update fa dt (sample_now 0 0 { s with CNT := cnt })).2.count_in_cpr = _
  rw [hup]
  refine ⟨?_, ?_, ?_⟩
  · rw [update_state_config, check_gain_config, hsn]
  · rw [update_state_shadow_count, check_gain_shadow_count, hsn]
    exact toInt32_of_isInt32 hfit
  · rw [update_state_count_in_cpr, check_gain_count_in_cpr, check_gain_config, hsn]
    show mod (toInt32 (s.count_in_cpr + d)) s.config.cpr = _
    rw [toInt32_of_isInt32 hfit2]
    rfl

theorem ramp_succ (n : Nat) : ramp (n + 1) = ramp n ++ [((n + 1 : Nat) : Int) % 65536] := by
  unfold ramp
  rw [List.range_succ, List.map_append]
  rfl

theorem sample_run_ramp (fa : ℚ → ℚ → ℚ) (dt : ℚ) (s : Encoder)
    (hmode : s.config.mode = Mode.MODE_INCREMENTAL) (hcpr : s.config.cpr = 8192)
    (hs : s.shadow_count = 0) (hc : s.count_in_cpr = 0) :
    ∀ n : Nat, n ≤ 2147483647 →
      (sample_run fa dt s (ramp n)).config = s.config
      ∧ (sample_run fa dt s (ramp n)).shadow_count = (n : Int)
      ∧ (sample_run fa dt s (ramp n)).count_in_cpr = (n : Int) % 8192 := by
  intro n
  induction n with
  | zero =>
    intro _
    have h := sample_tick_spec fa dt s 0 0 hmode (by decide) (by rw [hs]; decide)
      (by rw [hs]; decide) (by rw [hc]; decide)
    rw [hs, hc, hcpr] at h
    exact h
  | succ n ih =>
    intro hn
    obtain ⟨c, p, q⟩ := ih (by omega)
    rw [ramp_succ]
    unfold sample_run at c p q ⊢
    rw [List.foldl_append]
    show (sample_tick fa dt _ _).config = _ ∧ (sample_tick fa dt _ _).shadow_count = _
      ∧ (sample_tick fa dt _ _).count_in_cpr = _
    have h := sample_tick_spec fa dt (List.foldl (sample_tick fa dt) s (ramp n))
      (((n + 1 : Nat) : Int) % 65536) 1 (by rw [c]; exact hmode) (by decide)
      (by rw [p]; push_cast; rfl)
      (by rw [p]; unfold isInt32; omega) (by rw [q]; unfold isInt32; omega)
    rw [c, p, q, hcpr] at h
    refine ⟨h.1, ?_, ?_⟩
    · rw [h.2.1]
      push_cast
      rfl
    · rw [h.2.2]
      push_cast
      omega

/-- C21 (as amended): in INCREMENTAL mode with `cpr = 8192`, starting from
`shadow_count = 0` and `count_in_cpr = 0` and feeding the 16-bit counter readings of the
ramp 0, 1, 2, ..., 70000 (each taken modulo 65536) one per update, after the last tick
`shadow_count = 70000` and `count_in_cpr = 70000 mod 8192 = 4464`. -/
theorem incremental_ramp (fa : ℚ → ℚ → ℚ) (dt : ℚ) (s : Encoder)
    (hmode : s.config.mode = Mode.MODE_INCREMENTAL) (hcpr : s.config.cpr = 8192)
    (hs : s.shadow_count = 0) (hc : s.count_in_cpr = 0) :
    (sample_run fa dt s (ramp 70000)).shadow_count = 70000
    ∧ (sample_run fa dt s (ramp 70000)).count_in_cpr = mod 70000 8192
    ∧ mod 70000 8192 = 4464 := by
  obtain ⟨_, p, q⟩ := sample_run_ramp fa dt s hmode hcpr hs hc 70000 (by decide)
  exact ⟨p, q, by decide⟩

/-- C21, witness: the ramp fed to `encoder0` with `dt` of 125 µs. -/
theorem incremental_ramp_witness :
    (sample_run atan2_zero (1 / 8000) encoder0 (ramp 70000)).shadow_count = 70000
    ∧ (sample_run atan2_zero (1 / 8000) encoder0 (ramp 70000)).count_in_cpr = mod 70000 8192
    ∧ mod 70000 8192 = 4464 :=
  incremental_ramp atan2_zero (1 / 8000) encoder0 rfl rfl rfl rfl

/-- C21, counterexample: on `encoder0` with `dt` of 125 µs the ramp ends with
`count_in_cpr = 4464`, which is `70000 mod 8192`; it is not 4720. -/
theorem incremental_ramp_counterexample :
    (sample_run atan2_zero (1 / 8000) encoder0 (ramp 70000)).count_in_cpr = 4464
    ∧ (sample_run atan2_zero (1 / 8000) encoder0 (ramp 70000)).count_in_cpr ≠ 4720
    ∧ mod 70000 8192 ≠ 4720 := by
  have h := (sample_run_ramp atan2_zero (1 / 8000) encoder0 rfl rfl rfl rfl 70000
    (by decide)).2.2
  have h2 : ((70000 : Nat) : Int) % 8192 = 4464 := by decide
  rw [h2] at h
  refine ⟨h, ?_, by decide⟩
  rw [h]
  decide

/-! ## C22: the range of the electrical phase -/

/-- C24 (as amended): for every state with `cpr > 0` in which `count_in_cpr` is congruent to
`shadow_count` modulo `cpr`, every mode and every raw sensor input, an `update` that returns
true adds one raw delta `d` to both counts, and when neither `shadow_count + d` nor
`count_in_cpr + d` overflows 32 bits, `count_in_cpr` is still congruent to `shadow_count`
modulo `cpr` after it. -/
theorem update_keeps_agreement (fa : ℚ → ℚ → ℚ) (dt : ℚ) (s : Encoder)
    (_hcpr : 0 < s.config.cpr)
    (hagree : s.count_in_cpr % s.config.cpr = s.shadow_count % s.config.cpr)
    (hok : (update fa dt s).1 = true) :
    ∃ d, delta_enc fa s = Except.ok d
      ∧ (update fa dt s).2.shadow_count = toInt32 (s.shadow_count + d)
      ∧ (update fa dt s).2.count_in_cpr = mod (toInt32 (s.count_in_cpr + d)) s.config.cpr
      ∧ (isInt32 (s.shadow_count + d) → isInt32 (s.count_in_cpr + d) →
          (update fa dt s).2.count_in_cpr % (update fa dt s).2.config.cpr
            = (update fa dt s).2.shadow_count % (update fa dt s).2.config.cpr) := by
  obtain ⟨d, hd⟩ := (update_true_iff fa dt s).1 hok
  have hs : (update fa dt s).2.shadow_count = toInt32 (s.shadow_count + d) := by
    rw [update_of_ok fa dt s hd]
    show (update_state dt d (check_gain dt s)).shadow_count = _
    rw [update_state_shadow_count, check_gain_shadow_count]
  have hc : (update fa dt s).2.count_in_cpr
      = mod (toInt32 (s.count_in_cpr + d)) s.config.cpr := by
    rw [update_of_ok fa dt s hd]
    show (update_state dt d (check_gain dt s)).count_in_cpr = _
    rw [update_state_count_in_cpr, check_gain_count_in_cpr, check_gain_config]
  have hg : (update fa dt s).2.config = s.config := by
    rw [update_of_ok fa dt s hd]
    show (update_state dt d (check_gain dt s)).config = _
    rw [update_state_config, check_gain_config]
  refine ⟨d, hd, hs, hc, ?_⟩
  intro h1 h2
  rw [hs, hc, hg, toInt32_of_isInt32 h1, toInt32_of_isInt32 h2]
  unfold mod
  rw [Int.emod_emod_of_dvd _ (dvd_refl _), Int.add_emod, hagree, ← Int.add_emod]

/-- C24, witness: `encoder_step` (both counts 0, `cpr = 8192`) moves one count up: both
counts become 1. -/
theorem update_keeps_agreement_witness :
    (update atan2_zero (1 / 8000) encoder_step).1 = true
    ∧ ∃ d, delta_enc atan2_zero encoder_step = Except.ok d
      ∧ (update atan2_zero (1 / 8000) encoder_step).2.shadow_count
          = toInt32 (encoder_step.shadow_count + d)
      ∧ (update atan2_zero (1 / 8000) encoder_step).2.count_in_cpr
          = mod (toInt32 (encoder_step.count_in_cpr + d)) encoder_step.config.cpr
      ∧ (isInt32 (encoder_step.shadow_count + d) → isInt32 (encoder_step.count_in_cpr + d) →
          (update atan2_zero (1 / 8000) encoder_step).2.count_in_cpr
              % (update atan2_zero (1 / 8000) encoder_step).2.config.cpr
            = (update atan2_zero (1 / 8000) encoder_step).2.shadow_count
              % (update atan2_zero (1 / 8000) encoder_step).2.config.cpr) :=
  ⟨by decide!,
    update_keeps_agreement atan2_zero (1 / 8000) encoder_step (by decide) (by decide)
      (by decide!)⟩

/-- C24, counterexample: `encoder_brim` has `cpr = 2000 > 0` and congruent counts
(`2147483647 = 1647 + 2000 * 1073741`); its update (INCREMENTAL, one count up, `dt` of
125 µs) returns true and the linear count goes to 1648 without overflow, but the circular
count wraps to `-2147483648` before the modulo and ends at 352, not congruent to 1648
modulo 2000. The same happens from `encoder_widest`, whose circular count lies in
`[0, cpr)` for `cpr = 2147483647`: five counts up give the linear count 4 and the circular
count 2. -/
theorem update_keeps_agreement_counterexample :
    (0 < encoder_brim.config.cpr
      ∧ encoder_brim.count_in_cpr % encoder_brim.config.cpr
          = encoder_brim.shadow_count % encoder_brim.config.cpr
      ∧ (update atan2_zero (1 / 8000) encoder_brim).1 = true
      ∧ (delta_enc atan2_zero encoder_brim).toOption = some 1
      ∧ isInt32 (encoder_brim.shadow_count + 1)
      ∧ (update atan2_zero (1 / 8000) encoder_brim).2.shadow_count = 1648
      ∧ (update atan2_zero (1 / 8000) encoder_brim).2.count_in_cpr = 352
      ∧ (update atan2_zero (1 / 8000) encoder_brim).2.count_in_cpr
            % (update atan2_zero (1 / 8000) encoder_brim).2.config.cpr
          ≠ (update atan2_zero (1 / 8000) encoder_brim).2.shadow_count
            % (update atan2_zero (1 / 8000) encoder_brim).2.config.cpr)
    ∧ (count_in_range encoder_widest
      ∧ encoder_widest.count_in_cpr % encoder_widest.config.cpr
          = encoder_widest.shadow_count % encoder_widest.config.cpr
      ∧ (update atan2_zero (1 / 8000) encoder_widest).1 = true
      ∧ (delta_enc atan2_zero encoder_widest).toOption = some 5
      ∧ isInt32 (encoder_widest.shadow_count + 5)
      ∧ (update atan2_zero (1 / 8000) encoder_widest).2.shadow_count = 4
      ∧ (update atan2_zero (1 / 8000) encoder_widest).2.count_in_cpr = 2
      ∧ (update atan2_zero (1 / 8000) encoder_widest).2.count_in_cpr
            % (update atan2_zero (1 / 8000) encoder_widest).2.config.cpr
          ≠ (update atan2_zero (1 / 8000) encoder_widest).2.shadow_count
            % (update atan2_zero (1 / 8000) encoder_widest).2.config.cpr) := by
  decide!

/-! ## C23: the stored offset and the mean sample -/

/-- C23, the failing run: with `cpr = 2000` and seven pole pairs, the forward scan samples
`shadow_count` at 1143 and 2286 and the backward scan at 1143 and 1, with `FOC_update`
succeeding on every pass: `N = 4` non-negative samples that add up to 4573, and the
accumulators are `encvaluesum = 4573` and `num_steps = 4`. The calibration succeeds and
stores `offset = 571` and `offset_float = 9/8`, so `offset + (offset_float - 0.5)` is
`4573 / (2·4) = 571.625`, half the mean sample `4573 / 4 = 1143.25`. Likewise, when
every sample of the two scans equals 2286 (`world_constant`), the calibration succeeds and
stores `offset = 1143` and `offset_float = 0.5`. -/
theorem offset_calibration_half_mean :
    (run_offset_calibration world_forward (encoder_cal 0)).map
        (fun r => (r.1, r.2.config.offset, r.2.config.offset_float))
        = some (true, 571, 9 / 8)
    ∧ (world_forward.fwd ++ world_forward.bwd).map (fun t => (t.foc_ok, toInt32 t.shadow_count))
        = [(true, 1143), (true, 2286), (true, 1143), (true, 1)]
    ∧ (run_control_loop (scan_handler world_forward.fwd_start_ms) world_forward.fwd (0, 0)
        cal_locked).map Prod.fst = some (3429, 2)
    ∧ (run_control_loop (scan_handler world_forward.bwd_start_ms) world_forward.bwd (3429, 2)
        { cal_forward with axis := { cal_forward.axis with direction := 1 } }).map Prod.fst
        = some (4573, 4)
    ∧ ([1143, 2286, 1143, 1] : List Int).sum = 4573
    ∧ ([1143, 2286, 1143, 1] : List Int).length = 4
    ∧ (571 : ℚ) + (9 / 8 - 0.5) = 4573 / (2 * 4)
    ∧ (571 : ℚ) + (9 / 8 - 0.5) ≠ 4573 / 4
    ∧ (run_offset_calibration world_constant (encoder_cal 0)).map
        (fun r => (r.1, r.2.config.offset, r.2.config.offset_float))
        = some (true, 1143, 1 / 2)
    ∧ (world_constant.fwd ++ world_constant.bwd).map
        (fun t => (t.foc_ok, toInt32 t.shadow_count))
        = [(true, 2286), (true, 2286), (true, 2286), (true, 2286)] := by
  decide!

end ODrive
